import Mathlib

set_option maxRecDepth 8000

/-!
Verification development for the notes CRUD application (`src/index.js`).

The source is a single Node.js file: a flat-file store (`readNotes` /
`writeNotes` over `notes.json`), pure HTML template functions, and one
HTTP request handler that matches method + pathname and performs the
CRUD operations.  This file shallowly embeds that program:

* JavaScript primitive JSON values are `JVal`; a JavaScript object
  (a note, or a parsed request body) is an association list `Obj`
  with first-match field lookup (objects produced by `JSON.parse` and
  `querystring.parse` have distinct keys, so first-match agrees with
  JavaScript field access).
* `Date.now()` is an explicit `now : Int` argument.
* The request handler is `handleRequest method pathname body now notes`,
  returning the response together with the persisted store after the
  request.  Responses are kept structured (`Response`); the JSON texts
  that `JSON.stringify` would emit are produced by the serializer
  defined below for the store file.
* The regular-expression path tests (`/^\/api\/notes\/\d+$/` etc.) and
  `pathname.split('/')` are embedded by `splitSlashAux`, a character
  level model of JavaScript `String.prototype.split('/')`.
-/

/-- Primitive JSON values (the value domain of this application: note
fields are numbers and strings; `null`/booleans can occur in request
bodies). -/
inductive JVal where
  | num (n : Int)
  | str (s : String)
  | bool (b : Bool)
  | null
  deriving DecidableEq, Repr

/-- A JavaScript object as an association list of fields. -/
abbrev Obj := List (String × JVal)

/-- Field access `o.k`: first binding of the key (objects coming from
the parsers have distinct keys). `none` models `undefined`. -/
def getField : Obj → String → Option JVal
  | [], _ => none
  | (k, v) :: rest, key => if k = key then some v else getField rest key

/-- `n.id === id` from the handlers: strict equality of the note's `id`
field against the numeric id taken from the path. -/
def idEq (n : Obj) (i : Int) : Bool :=
  match getField n "id" with
  | some (JVal.num j) => j == i
  | _ => false

/-- Object spread `{ ...a, ...b }` (line 154 / 234): fields of `a` in
order, overridden by a same-named field of `b` when present, followed by
the fields of `b` not named in `a`. -/
def spreadMerge (a b : Obj) : Obj :=
  a.map (fun kv =>
    match getField b kv.1 with
    | some v => (kv.1, v)
    | none => kv) ++
  b.filter (fun kv => (getField a kv.1).isNone)

/-- `notes.find(n => n.id === id)` (lines 118, 204, 216). -/
def findNote (i : Int) : List Obj → Option Obj
  | [] => none
  | n :: ns => if idEq n i then some n else findNote i ns

/-- `notes.findIndex(n => n.id === id)` together with the element at
that index (`notes[idx]`); `none` models index `-1`. -/
def findNoteWithIdx (i : Int) : List Obj → Option (Nat × Obj)
  | [] => none
  | n :: ns =>
    if idEq n i then some (0, n)
    else (findNoteWithIdx i ns).map (fun p => (p.1 + 1, p.2))

/-- The created note `{ id: Date.now(), title: data.title, content:
data.content }` (lines 133, 194), as it is observable once serialized:
`JSON.stringify` drops fields whose value is `undefined`, so a missing
`title`/`content` in the body yields a note without that field both in
the persisted file and in the `201` response body. -/
def mkNote (now : Int) (data : Obj) : Obj :=
  ("id", JVal.num now) ::
    ((match getField data "title" with
      | some v => [("title", v)]
      | none => []) ++
     (match getField data "content" with
      | some v => [("content", v)]
      | none => []))

/-! ### Decimal digits and numeric path segments -/

/-- The decimal digit character for `d < 10`. -/
def digitChar (d : Nat) : Char := Char.ofNat (48 + d)

/-- Little-endian decimal digits of `n` (with enough fuel); empty for 0. -/
def revDigits : Nat → Nat → List Char
  | 0, _ => []
  | _ + 1, 0 => []
  | f + 1, n => digitChar (n % 10) :: revDigits f (n / 10)

/-- Decimal digit characters of `n`, most significant first (the way
JavaScript prints an integer-valued number into a template or
`JSON.stringify`). -/
def natChars (n : Nat) : List Char :=
  if n = 0 then ['0'] else (revDigits n n).reverse

/-- Decimal rendering of an integer (JavaScript number-to-string for
integer values). -/
def intChars (i : Int) : List Char :=
  if i < 0 then '-' :: natChars i.natAbs else natChars i.natAbs

/-- String form of `natChars`. -/
def natToStr (n : Nat) : String := ⟨natChars n⟩

/-- String form of `intChars`. -/
def intToStr (i : Int) : String := ⟨intChars i⟩

/-- Numeric value of a decimal digit string: `Number('…digits…')`. -/
def digitsToNat (l : List Char) : Nat :=
  l.foldl (fun a c => a * 10 + (c.toNat - 48)) 0

/-- `\d+`: one or more decimal digit characters. -/
def isDigitsL (l : List Char) : Bool :=
  !l.isEmpty && l.all (fun c => c.isDigit)

/-! ### Path matching

`pathname.split('/')` is modelled character by character; the regular
expressions `/^\/api\/notes\/\d+$/`, `/^\/notes\/\d+$/`,
`/^\/notes\/\d+\/edit$/` and `/^\/notes\/\d+\/delete$/` hold exactly
when the split yields the corresponding segment shapes with a `\d+`
segment in the id position. -/

/-- JavaScript `s.split('/')` on the character list of `s`. -/
def splitSlashAux : List Char → List (List Char)
  | [] => [[]]
  | c :: cs =>
    if c = '/' then [] :: splitSlashAux cs
    else (c :: (splitSlashAux cs).headD []) :: (splitSlashAux cs).tail

/-- Segment `i` of the pathname, i.e. `pathname.split('/')[i]`. -/
def pathSeg (p : String) (i : Nat) : List Char :=
  (splitSlashAux p.data).getD i []

/-- `/^\/api\/notes\/\d+$/.test(pathname)`. -/
def apiIdMatch (p : String) : Bool :=
  match splitSlashAux p.data with
  | [[], ['a', 'p', 'i'], ['n', 'o', 't', 'e', 's'], d] => isDigitsL d
  | _ => false

/-- `Number(pathname.split('/')[3])` (valid under `apiIdMatch`). -/
def apiId (p : String) : Int := (digitsToNat (pathSeg p 3) : Int)

/-- `/^\/notes\/\d+$/.test(pathname)`. -/
def webIdMatch (p : String) : Bool :=
  match splitSlashAux p.data with
  | [[], ['n', 'o', 't', 'e', 's'], d] => isDigitsL d
  | _ => false

/-- `/^\/notes\/\d+\/edit$/.test(pathname)`. -/
def webEditMatch (p : String) : Bool :=
  match splitSlashAux p.data with
  | [[], ['n', 'o', 't', 'e', 's'], d, ['e', 'd', 'i', 't']] => isDigitsL d
  | _ => false

/-- `/^\/notes\/\d+\/delete$/.test(pathname)`. -/
def webDeleteMatch (p : String) : Bool :=
  match splitSlashAux p.data with
  | [[], ['n', 'o', 't', 'e', 's'], d, ['d', 'e', 'l', 'e', 't', 'e']] => isDigitsL d
  | _ => false

/-- `Number(pathname.split('/')[2])` (valid under the web id matches). -/
def webId (p : String) : Int := (digitsToNat (pathSeg p 2) : Int)

/-- `listStarts pre l` is `true` when `pre` is an initial run of `l`;
models `pathname.startsWith('/api/notes')` on character lists. -/
def listStarts : List Char → List Char → Bool
  | [], _ => true
  | _ :: _, [] => false
  | a :: as, b :: bs => a == b && listStarts as bs

/-- `pathname.startsWith('/api/notes')` (line 107). -/
def startsWithApi (p : String) : Bool :=
  listStarts "/api/notes".data p.data

/-! ### HTML templates -/

/-- JavaScript template interpolation of a possibly-undefined field
value (`${note.title}` renders `undefined` for a missing field). -/
def jsShow : Option JVal → String
  | none => "undefined"
  | some (JVal.num n) => intToStr n
  | some (JVal.str s) => s
  | some (JVal.bool b) => if b then "true" else "false"
  | some JVal.null => "null"

/-- JavaScript truthiness of a field value (`!!note.id`,
`note.title || ''`). -/
def jsTruthy : Option JVal → Bool
  | none => false
  | some (JVal.num n) => n != 0
  | some (JVal.str s) => !s.isEmpty
  | some (JVal.bool b) => b
  | some JVal.null => false

/-- `v || ''` as interpolated into the form template. -/
def jsOrEmpty (v : Option JVal) : String :=
  if jsTruthy v then jsShow v else ""

/-- `renderNotesList(notes)` (lines 46-60); the template's inert
indentation whitespace is elided. -/
def renderNotesList (notes : List Obj) : String :=
  "<a href=\"/notes/new\">Add Note</a><div>" ++
  String.join (notes.map (fun note =>
    "<div class=\"note\"><h3><a href=\"/notes/" ++
    jsShow (getField note "id") ++ "\">" ++
    jsShow (getField note "title") ++
    "</a></h3><form method=\"POST\" action=\"/notes/" ++
    jsShow (getField note "id") ++
    "/delete\" style=\"display:inline;\"><button type=\"submit\">Delete</button></form></div>")) ++
  "</div>"

/-- `renderNoteDetail(note)` (lines 62-71), whitespace elided. -/
def renderNoteDetail (note : Obj) : String :=
  "<a href=\"/\">Back to Notes</a><div class=\"note\"><h2>" ++
  jsShow (getField note "title") ++ "</h2><p>" ++
  jsShow (getField note "content") ++ "</p><a href=\"/notes/" ++
  jsShow (getField note "id") ++ "/edit\">Edit</a></div>"

/-- `renderNoteForm(note = {})` (lines 73-89), whitespace elided. -/
def renderNoteForm (note : Obj) : String :=
  let isEdit := jsTruthy (getField note "id")
  "<a href=\"/\">Back to Notes</a><form method=\"POST\" action=\"" ++
  (if isEdit then "/notes/" ++ jsShow (getField note "id") ++ "/edit"
   else "/notes/new") ++
  "\"><div><label>Title:</label><br><input name=\"title\" value=\"" ++
  jsOrEmpty (getField note "title") ++
  "\" required></div><div><label>Content:</label><br><textarea name=\"content\" required>" ++
  jsOrEmpty (getField note "content") ++
  "</textarea></div><button type=\"submit\">" ++
  (if isEdit then "Update" else "Create") ++ " Note</button></form>"

/-! ### Responses and the request handler -/

/-- An HTTP response as produced by the handler.  `page status title
inner` stands for `renderLayout(title, inner)` served as `text/html`
with the given status (the layout shell, lines 26-44, is a fixed
wrapper determined by `title` and `inner`); the `json*` constructors
stand for `JSON.stringify` of the corresponding value served as
`application/json`; `redirect loc` is a `302` with a `Location`
header and empty body. -/
inductive Response where
  | jsonArr (status : Nat) (notes : List Obj)
  | jsonObj (status : Nat) (note : Obj)
  | jsonErr (status : Nat) (error : String)
  | page (status : Nat) (title : String) (inner : String)
  | redirect (location : String)
  deriving DecidableEq, Repr

/-- `404` + `JSON.stringify({ error: 'Note not found' })`. -/
def notFoundJson : Response := Response.jsonErr 404 "Note not found"

/-- `404` + `renderLayout('Not Found', '<div>Note not found</div>')`. -/
def notFoundPage : Response := Response.page 404 "Not Found" "<div>Note not found</div>"

/-- The final catch-all (lines 254-256). -/
def catchAllPage : Response := Response.page 404 "Not Found" "<div>404 Not Found</div>"

/-- The `/api/notes`-prefixed block of the handler (lines 107-176).
`none` means no API route matched and control falls through to the web
routes.  `data` is the JSON-parsed request body (`JSON.parse(body)`),
`now` is `Date.now()`. -/
def serveApi (m p : String) (data : Obj) (now : Int) (notes : List Obj) :
    Option (Response × List Obj) :=
  if m = "GET" ∧ p = "/api/notes" then
    some (Response.jsonArr 200 notes, notes)
  else if m = "GET" ∧ apiIdMatch p = true then
    match findNote (apiId p) notes with
    | none => some (notFoundJson, notes)
    | some note => some (Response.jsonObj 200 note, notes)
  else if m = "POST" ∧ p = "/api/notes" then
    let note := mkNote now data
    some (Response.jsonObj 201 note, notes ++ [note])
  else if m = "PUT" ∧ apiIdMatch p = true then
    match findNoteWithIdx (apiId p) notes with
    | none => some (notFoundJson, notes)
    | some (idx, old) =>
      let merged := spreadMerge old data
      some (Response.jsonObj 200 merged, notes.set idx merged)
  else if m = "DELETE" ∧ apiIdMatch p = true then
    match findNoteWithIdx (apiId p) notes with
    | none => some (notFoundJson, notes)
    | some (idx, old) => some (Response.jsonObj 200 old, notes.eraseIdx idx)
  else none

/-- The server-rendered web routes (lines 178-252); `none` means no
route matched.  `data` is the form body parsed by `parseBody`
(`querystring.parse`). -/
def serveWeb (m p : String) (data : Obj) (now : Int) (notes : List Obj) :
    Option (Response × List Obj) :=
  if m = "GET" ∧ p = "/" then
    some (Response.page 200 "Notes" (renderNotesList notes), notes)
  else if m = "GET" ∧ p = "/notes/new" then
    some (Response.page 200 "New Note" (renderNoteForm []), notes)
  else if m = "POST" ∧ p = "/notes/new" then
    let note := mkNote now data
    some (Response.redirect "/", notes ++ [note])
  else if m = "GET" ∧ webIdMatch p = true then
    match findNote (webId p) notes with
    | none => some (notFoundPage, notes)
    | some note =>
      some (Response.page 200 (jsShow (getField note "title")) (renderNoteDetail note), notes)
  else if m = "GET" ∧ webEditMatch p = true then
    match findNote (webId p) notes with
    | none => some (notFoundPage, notes)
    | some note => some (Response.page 200 "Edit Note" (renderNoteForm note), notes)
  else if m = "POST" ∧ webEditMatch p = true then
    match findNoteWithIdx (webId p) notes with
    | none => some (notFoundPage, notes)
    | some (idx, old) =>
      let merged := spreadMerge old data
      some (Response.redirect ("/notes/" ++ intToStr (webId p)), notes.set idx merged)
  else if m = "POST" ∧ webDeleteMatch p = true then
    match findNoteWithIdx (webId p) notes with
    | none => some (notFoundPage, notes)
    | some (idx, _) => some (Response.redirect "/", notes.eraseIdx idx)
  else none

/-- The whole request handler (lines 102-257): the API block is
consulted only under the `/api/notes` prefix test and may fall through;
then the web routes; then the catch-all 404 page.  The second component
is the persisted store after the request (unchanged when the request
does not write). -/
def handleRequest (m p : String) (data : Obj) (now : Int) (notes : List Obj) :
    Response × List Obj :=
  match (if startsWithApi p then serveApi m p data now notes else none) with
  | some r => r
  | none =>
    match serveWeb m p data now notes with
    | some r => r
    | none => (catchAllPage, notes)

example : natToStr 1024 = "1024" := by decide
example : intToStr (-35) = "-35" := by decide
example : splitSlashAux "/api/notes/52".data =
    [[], ['a', 'p', 'i'], ['n', 'o', 't', 'e', 's'], ['5', '2']] := by decide
example : apiIdMatch "/api/notes/52" = true := by decide
example : apiId "/api/notes/52" = 52 := by decide
example : webEditMatch "/notes/7/edit" = true := by decide
example : webIdMatch "/notes/new" = false := by decide
example : startsWithApi "/api/notes/52" = true := by decide
example : startsWithApi "/notes/3" = false := by decide
example :
    handleRequest "GET" "/api/notes/5" [] 0 [[("id", JVal.num 5), ("title", JVal.str "t")]] =
      (Response.jsonObj 200 [("id", JVal.num 5), ("title", JVal.str "t")],
        [[("id", JVal.num 5), ("title", JVal.str "t")]]) := by decide
example :
    handleRequest "GET" "/api/notes/6" [] 0 [[("id", JVal.num 5)]] =
      (notFoundJson, [[("id", JVal.num 5)]]) := by decide
example :
    handleRequest "POST" "/api/notes" [("title", JVal.str "T"), ("content", JVal.str "C")] 9 [] =
      (Response.jsonObj 201
        [("id", JVal.num 9), ("title", JVal.str "T"), ("content", JVal.str "C")],
        [[("id", JVal.num 9), ("title", JVal.str "T"), ("content", JVal.str "C")]]) := by decide
example :
    (handleRequest "PUT" "/api/notes/5" [("title", JVal.str "U")] 0
      [[("id", JVal.num 5), ("title", JVal.str "t"), ("content", JVal.str "c")]]).2 =
      [[("id", JVal.num 5), ("title", JVal.str "U"), ("content", JVal.str "c")]] := by decide
example :
    handleRequest "DELETE" "/api/notes/5" [] 0 [[("id", JVal.num 5)], [("id", JVal.num 6)]] =
      (Response.jsonObj 200 [("id", JVal.num 5)], [[("id", JVal.num 6)]]) := by decide
example :
    handleRequest "GET" "/api/notes/abc" [] 0 [] = (catchAllPage, []) := by decide
example :
    handleRequest "GET" "/notes/new" [] 0 [] =
      (Response.page 200 "New Note" (renderNoteForm []), []) := by decide
example :
    (handleRequest "POST" "/notes/7/delete" [] 0 [[("id", JVal.num 7)]]) =
      (Response.redirect "/", []) := by decide

/-! ### Lemmas about field lookup and the spread merge -/

theorem getField_append (l₁ l₂ : Obj) (k : String) :
    getField (l₁ ++ l₂) k = (getField l₁ k).or (getField l₂ k) := by
  induction l₁ with
  | nil => simp [getField, Option.or]
  | cons kv rest ih =>
    by_cases h : kv.1 = k
    · simp [getField, h, Option.or]
    · simp [getField, h, ih]

theorem getField_map_override (a b : Obj) (k : String) :
    getField (a.map (fun kv =>
      match getField b kv.1 with
      | some v => (kv.1, v)
      | none => kv)) k =
    (getField a k).map (fun v => (getField b k).getD v) := by
  induction a with
  | nil => simp [getField]
  | cons kv rest ih =>
    by_cases h : kv.1 = k
    · subst h
      cases hb : getField b kv.1 <;> simp [getField, hb]
    · cases hb : getField b kv.1 <;> simp [getField, hb, h, ih]

theorem getField_filter_fresh (a b : Obj) (k : String) (h : getField a k = none) :
    getField (b.filter (fun kv => (getField a kv.1).isNone)) k = getField b k := by
  induction b with
  | nil => simp
  | cons kv rest ih =>
    by_cases hk : kv.1 = k
    · subst hk
      simp [List.filter_cons, h, getField, ih]
    · by_cases ha : (getField a kv.1).isNone <;>
        simp [List.filter_cons, ha, getField, hk, ih]

theorem getField_filter_stale (a b : Obj) (k : String) (h : (getField a k).isSome) :
    getField (b.filter (fun kv => (getField a kv.1).isNone)) k = none := by
  induction b with
  | nil => simp [getField]
  | cons kv rest ih =>
    by_cases hk : kv.1 = k
    · subst hk
      have : (getField a kv.1).isNone = false := by
        cases hv : getField a kv.1 <;> simp_all
      simp [List.filter_cons, this, ih]
    · by_cases ha : (getField a kv.1).isNone <;>
        simp [List.filter_cons, ha, getField, hk, ih]

/-- Shallow-merge semantics at every field: a field named in the body
wins, a field absent from the body keeps the stored value. -/
theorem getField_spreadMerge (a b : Obj) (k : String) :
    getField (spreadMerge a b) k = (getField b k).or (getField a k) := by
  unfold spreadMerge
  rw [getField_append, getField_map_override]
  cases ha : getField a k with
  | none =>
    rw [getField_filter_fresh a b k ha]
    cases getField b k <;> simp [Option.or]
  | some v =>
    rw [getField_filter_stale a b k (by simp [ha])]
    cases getField b k <;> simp [Option.or]

/-! ### Lemmas about `find` / `findIndex` -/

theorem findNote_eq_none_iff (i : Int) (l : List Obj) :
    findNote i l = none ↔ ∀ n ∈ l, idEq n i = false := by
  induction l with
  | nil => simp [findNote]
  | cons n ns ih =>
    by_cases h : idEq n i <;> simp [findNote, h, ih]

theorem findNoteWithIdx_none_iff (i : Int) (l : List Obj) :
    findNoteWithIdx i l = none ↔ findNote i l = none := by
  induction l with
  | nil => simp [findNoteWithIdx, findNote]
  | cons n ns ih =>
    by_cases h : idEq n i <;> simp [findNoteWithIdx, findNote, h, ih]

theorem findNoteWithIdx_cons_elim {i : Int} {n : Obj} {ns : List Obj} {idx : Nat} {o : Obj}
    (h : findNoteWithIdx i (n :: ns) = some (idx, o)) :
    (idEq n i = true ∧ idx = 0 ∧ o = n) ∨
    (idEq n i = false ∧ ∃ j, idx = j + 1 ∧ findNoteWithIdx i ns = some (j, o)) := by
  by_cases hn : idEq n i
  · rw [show findNoteWithIdx i (n :: ns) = some (0, n) by simp [findNoteWithIdx, hn]] at h
    obtain ⟨h1, h2⟩ := Prod.mk.injEq 0 n idx o ▸ Option.some.inj h
    exact Or.inl ⟨hn, h1.symm, h2.symm⟩
  · rw [show findNoteWithIdx i (n :: ns)
        = (findNoteWithIdx i ns).map (fun p => (p.1 + 1, p.2)) by
      simp [findNoteWithIdx, hn]] at h
    cases hrec : findNoteWithIdx i ns with
    | none => rw [hrec] at h; simp at h
    | some q =>
      rw [hrec] at h
      simp only [Option.map_some', Option.some.injEq, Prod.mk.injEq] at h
      obtain ⟨h1, h2⟩ := h
      refine Or.inr ⟨by simpa using hn, q.1, h1.symm, ?_⟩
      rw [← h2]

theorem findNoteWithIdx_get (i : Int) (l : List Obj) (idx : Nat) (o : Obj)
    (h : findNoteWithIdx i l = some (idx, o)) :
    l.get? idx = some o ∧ idEq o i = true := by
  induction l generalizing idx with
  | nil => simp [findNoteWithIdx] at h
  | cons n ns ih =>
    rcases findNoteWithIdx_cons_elim h with ⟨hn, hidx, ho⟩ | ⟨_, j, hidx, hrec⟩
    · subst hidx; subst ho; exact ⟨rfl, hn⟩
    · subst hidx
      obtain ⟨h1, h2⟩ := ih j hrec
      exact ⟨by simpa using h1, h2⟩

theorem findNote_append_of_none (i : Int) (l₁ l₂ : List Obj)
    (h : ∀ n ∈ l₁, idEq n i = false) :
    findNote i (l₁ ++ l₂) = findNote i l₂ := by
  induction l₁ with
  | nil => simp
  | cons n ns ih =>
    have hn := h n (by simp)
    simp only [List.cons_append, findNote, hn, if_neg (by simp [hn] : ¬ idEq n i = true)]
    exact ih (fun m hm => h m (by simp [hm]))

/-- After deleting the first match, no match remains, provided at most
one note carried the id. -/
theorem eraseIdx_no_match (i : Int) (l : List Obj) (idx : Nat) (o : Obj)
    (hfind : findNoteWithIdx i l = some (idx, o))
    (hcount : l.countP (fun n => idEq n i) ≤ 1) :
    ∀ n ∈ l.eraseIdx idx, idEq n i = false := by
  induction l generalizing idx with
  | nil => simp [findNoteWithIdx] at hfind
  | cons n ns ih =>
    rw [List.countP_cons] at hcount
    rcases findNoteWithIdx_cons_elim hfind with ⟨hn, hidx, _⟩ | ⟨hn, j, hidx, hrec⟩
    · subst hidx
      simp only [hn, if_true] at hcount
      have hz : ns.countP (fun x => idEq x i) = 0 := by omega
      intro m hm
      simp only [List.eraseIdx_cons_zero] at hm
      simpa using List.countP_eq_zero.mp hz m hm
    · subst hidx
      simp only [hn, if_false] at hcount
      intro m hm
      simp only [List.eraseIdx_cons_succ, List.mem_cons] at hm
      rcases hm with rfl | hm
      · exact hn
      · exact ih j hrec (by omega) m hm

/-- After replacing the first match by a non-matching object, no match
remains, provided at most one note carried the id. -/
theorem set_no_match (i : Int) (l : List Obj) (idx : Nat) (o m : Obj)
    (hfind : findNoteWithIdx i l = some (idx, o))
    (hcount : l.countP (fun n => idEq n i) ≤ 1)
    (hm : idEq m i = false) :
    ∀ n ∈ l.set idx m, idEq n i = false := by
  induction l generalizing idx with
  | nil => simp [findNoteWithIdx] at hfind
  | cons n ns ih =>
    rw [List.countP_cons] at hcount
    rcases findNoteWithIdx_cons_elim hfind with ⟨hn, hidx, _⟩ | ⟨hn, j, hidx, hrec⟩
    · subst hidx
      simp only [hn, if_true] at hcount
      have hz : ns.countP (fun x => idEq x i) = 0 := by omega
      intro x hx
      simp only [List.set_cons_zero, List.mem_cons] at hx
      rcases hx with rfl | hx
      · exact hm
      · simpa using List.countP_eq_zero.mp hz x hx
    · subst hidx
      simp only [hn, if_false] at hcount
      intro x hx
      simp only [List.set_cons_succ, List.mem_cons] at hx
      rcases hx with rfl | hx
      · exact hn
      · exact ih j hrec (by omega) x hx

/-- Replacing a known element rebalances `countP` by exactly the two
indicator values. -/
theorem countP_set_balance (p : Obj → Bool) (l : List Obj) (idx : Nat) (o m : Obj)
    (h : l.get? idx = some o) :
    (l.set idx m).countP p + (if p o then 1 else 0) =
      l.countP p + (if p m then 1 else 0) := by
  induction l generalizing idx with
  | nil => simp at h
  | cons n ns ih =>
    rcases idx with _ | idx
    · simp only [List.get?_cons_zero, Option.some.injEq] at h
      subst h
      simp [List.countP_cons]
      omega
    · simp only [List.get?_cons_succ] at h
      have := ih idx h
      simp [List.countP_cons]
      omega

/-! ### Lemmas about the created note -/

theorem getField_mkNote_id (now : Int) (data : Obj) :
    getField (mkNote now data) "id" = some (JVal.num now) := by
  simp [mkNote, getField]

theorem getField_mkNote_title (now : Int) (data : Obj) :
    getField (mkNote now data) "title" = getField data "title" := by
  cases ht : getField data "title" <;> cases hc : getField data "content" <;>
    simp [mkNote, getField, ht, hc]

theorem getField_mkNote_content (now : Int) (data : Obj) :
    getField (mkNote now data) "content" = getField data "content" := by
  cases ht : getField data "title" <;> cases hc : getField data "content" <;>
    simp [mkNote, getField, ht, hc]

theorem idEq_mkNote (now i : Int) (data : Obj) :
    idEq (mkNote now data) i = (now == i) := by
  simp [idEq, getField_mkNote_id]

/-! ### Lemmas about decimal digit strings -/

theorem digitChar_isDigit (d : Nat) (h : d < 10) : (digitChar d).isDigit = true := by
  interval_cases d <;> decide

theorem digitChar_toNat (d : Nat) (h : d < 10) : (digitChar d).toNat = 48 + d := by
  interval_cases d <;> decide

theorem revDigits_all_digits (f : Nat) : ∀ (n : Nat), ∀ c ∈ revDigits f n, c.isDigit = true := by
  induction f with
  | zero => simp [revDigits]
  | succ f ih =>
    intro n c hc
    cases n with
    | zero => simp [revDigits] at hc
    | succ m =>
      simp only [revDigits, List.mem_cons] at hc
      rcases hc with rfl | hc
      · exact digitChar_isDigit _ (Nat.mod_lt _ (by omega))
      · exact ih _ c hc

theorem natChars_ne_nil (n : Nat) : natChars n ≠ [] := by
  unfold natChars
  split
  · simp
  · rename_i hn
    simp only [ne_eq, List.reverse_eq_nil_iff]
    cases n with
    | zero => omega
    | succ m => simp [revDigits]

theorem natChars_all_digits (n : Nat) : ∀ c ∈ natChars n, c.isDigit = true := by
  unfold natChars
  split
  · intro c hc
    simp only [List.mem_singleton] at hc
    subst hc
    decide
  · intro c hc
    rw [List.mem_reverse] at hc
    exact revDigits_all_digits _ _ c hc

theorem isDigitsL_natChars (n : Nat) : isDigitsL (natChars n) = true := by
  have h1 := natChars_ne_nil n
  have h2 := natChars_all_digits n
  simp only [isDigitsL, Bool.and_eq_true, Bool.not_eq_true', List.all_eq_true]
  exact ⟨by simpa using h1, fun c hc => h2 c hc⟩

theorem foldl_revDigits (f : Nat) : ∀ (n acc : Nat), n ≤ f →
    List.foldl (fun a c => a * 10 + (c.toNat - 48)) acc (revDigits f n).reverse =
      acc * 10 ^ (revDigits f n).length + n := by
  induction f with
  | zero =>
    intro n acc h
    have : n = 0 := by omega
    subst this
    simp [revDigits]
  | succ f ih =>
    intro n acc h
    cases n with
    | zero => simp [revDigits]
    | succ m =>
      have hdiv : (m + 1) / 10 ≤ f := by
        have := Nat.div_lt_self (show 0 < m + 1 by omega) (show 1 < 10 by omega)
        omega
      simp only [revDigits, List.reverse_cons, List.foldl_append, List.foldl_cons,
        List.foldl_nil, List.length_cons]
      rw [ih _ acc hdiv, digitChar_toNat _ (Nat.mod_lt _ (by omega)), pow_succ,
        ← mul_assoc]
      generalize acc * 10 ^ (revDigits f ((m + 1) / 10)).length = u
      omega

theorem digitsToNat_natChars (n : Nat) : digitsToNat (natChars n) = n := by
  by_cases hn : n = 0
  · subst hn
    decide
  · rw [natChars, if_neg hn, digitsToNat, foldl_revDigits n n 0 le_rfl]
    simp

theorem intToStr_natCast (n : Nat) : intToStr (n : Int) = natToStr n := by
  simp [intToStr, natToStr, intChars, Int.natCast_nonneg, not_lt.mpr]

/-! ### Lemmas about path splitting -/

theorem splitSlashAux_slash (l : List Char) :
    splitSlashAux ('/' :: l) = [] :: splitSlashAux l := by
  simp [splitSlashAux]

theorem splitSlashAux_cons (c : Char) (h : c ≠ '/') (l : List Char) :
    splitSlashAux (c :: l) =
      (c :: (splitSlashAux l).headD []) :: (splitSlashAux l).tail := by
  simp [splitSlashAux, h]

theorem splitSlashAux_noSlash (l : List Char) (h : ∀ c ∈ l, c ≠ '/') :
    splitSlashAux l = [l] := by
  induction l with
  | nil => rfl
  | cons c cs ih =>
    rw [splitSlashAux_cons c (h c (by simp)) cs,
      ih (fun x hx => h x (by simp [hx]))]
    rfl

theorem splitSlashAux_noSlash_append (l₁ : List Char) (h : ∀ c ∈ l₁, c ≠ '/')
    (l₂ : List Char) :
    splitSlashAux (l₁ ++ '/' :: l₂) = l₁ :: splitSlashAux l₂ := by
  induction l₁ with
  | nil => simp [splitSlashAux_slash]
  | cons c cs ih =>
    rw [List.cons_append, splitSlashAux_cons c (h c (by simp)),
      ih (fun x hx => h x (by simp [hx]))]
    rfl

theorem isDigit_ne_slash (c : Char) (h : c.isDigit = true) : c ≠ '/' := by
  intro he
  subst he
  simp [Char.isDigit] at h

theorem isDigitsL_noSlash (d : List Char) (h : isDigitsL d = true) :
    ∀ c ∈ d, c ≠ '/' := by
  intro c hc
  simp only [isDigitsL, Bool.and_eq_true, List.all_eq_true] at h
  exact isDigit_ne_slash c (h.2 c hc)

theorem split_api_path (d : List Char) (h : ∀ c ∈ d, c ≠ '/') :
    splitSlashAux ("/api/notes/".data ++ d) =
      [[], ['a', 'p', 'i'], ['n', 'o', 't', 'e', 's'], d] := by
  have e : "/api/notes/".data ++ d =
      '/' :: ("api".data ++ '/' :: ("notes".data ++ '/' :: d)) := rfl
  rw [e, splitSlashAux_slash,
    splitSlashAux_noSlash_append "api".data (by decide),
    splitSlashAux_noSlash_append "notes".data (by decide),
    splitSlashAux_noSlash d h]

theorem split_web_path (d : List Char) (h : ∀ c ∈ d, c ≠ '/') :
    splitSlashAux ("/notes/".data ++ d) = [[], ['n', 'o', 't', 'e', 's'], d] := by
  have e : "/notes/".data ++ d = '/' :: ("notes".data ++ '/' :: d) := rfl
  rw [e, splitSlashAux_slash,
    splitSlashAux_noSlash_append "notes".data (by decide),
    splitSlashAux_noSlash d h]

theorem split_web_tail_path (d : List Char) (h : ∀ c ∈ d, c ≠ '/')
    (t : List Char) (ht : ∀ c ∈ t, c ≠ '/') :
    splitSlashAux ("/notes/".data ++ d ++ '/' :: t) =
      [[], ['n', 'o', 't', 'e', 's'], d, t] := by
  have e : "/notes/".data ++ d ++ '/' :: t =
      '/' :: ("notes".data ++ '/' :: (d ++ '/' :: t)) := by
    rw [List.append_assoc]
    rfl
  rw [e, splitSlashAux_slash,
    splitSlashAux_noSlash_append "notes".data (by decide),
    splitSlashAux_noSlash_append d h,
    splitSlashAux_noSlash t ht]

/-! ### String disequality helpers -/

theorem String_ne_of_get (i : Nat) (s t : String)
    (h : s.data.get? i ≠ t.data.get? i) : s ≠ t := fun he => h (by rw [he])

theorem String_ne_of_len (s t : String)
    (h : s.data.length ≠ t.data.length) : s ≠ t := fun he => h (by rw [he])

theorem String_eq_of_data {s t : String} (h : s.data = t.data) : s = t := by
  cases s
  cases t
  exact congrArg String.mk h

/-! ### Evaluating the route predicates on the four id-path shapes -/

theorem apiIdMatch_api_seg (s : String) (hs : ∀ c ∈ s.data, c ≠ '/') :
    apiIdMatch ("/api/notes/" ++ s) = isDigitsL s.data := by
  unfold apiIdMatch
  rw [String.data_append, split_api_path s.data hs]
  rfl

theorem webIdMatch_api_seg (s : String) (hs : ∀ c ∈ s.data, c ≠ '/') :
    webIdMatch ("/api/notes/" ++ s) = false := by
  unfold webIdMatch
  rw [String.data_append, split_api_path s.data hs]
  rfl

theorem webEditMatch_api_seg (s : String) (hs : ∀ c ∈ s.data, c ≠ '/') :
    webEditMatch ("/api/notes/" ++ s) = false := by
  unfold webEditMatch
  rw [String.data_append, split_api_path s.data hs]
  rfl

theorem webDeleteMatch_api_seg (s : String) (hs : ∀ c ∈ s.data, c ≠ '/') :
    webDeleteMatch ("/api/notes/" ++ s) = false := by
  unfold webDeleteMatch
  rw [String.data_append, split_api_path s.data hs]
  rfl

theorem pathSeg_api_seg (s : String) (hs : ∀ c ∈ s.data, c ≠ '/') :
    pathSeg ("/api/notes/" ++ s) 3 = s.data := by
  unfold pathSeg
  rw [String.data_append, split_api_path s.data hs]
  rfl

theorem startsWithApi_api_seg (s : String) :
    startsWithApi ("/api/notes/" ++ s) = true := by
  unfold startsWithApi
  rw [String.data_append]
  rfl

theorem api_seg_ne_root (s : String) : ("/api/notes/" ++ s) ≠ "/" := by
  apply String_ne_of_get 1
  rw [String.data_append]
  rw [show ("/api/notes/".data ++ s.data).get? 1 = some 'a' from rfl]
  decide

theorem api_seg_ne_api (s : String) : ("/api/notes/" ++ s) ≠ "/api/notes" := by
  apply String_ne_of_get 10
  rw [String.data_append]
  rw [show ("/api/notes/".data ++ s.data).get? 10 = some '/' from rfl]
  decide

theorem api_seg_ne_new (s : String) : ("/api/notes/" ++ s) ≠ "/notes/new" := by
  apply String_ne_of_get 1
  rw [String.data_append]
  rw [show ("/api/notes/".data ++ s.data).get? 1 = some 'a' from rfl]
  decide

theorem apiIdMatch_web_seg (s : String) (hs : ∀ c ∈ s.data, c ≠ '/') :
    apiIdMatch ("/notes/" ++ s) = false := by
  unfold apiIdMatch
  rw [String.data_append, split_web_path s.data hs]
  rfl

theorem webIdMatch_web_seg (s : String) (hs : ∀ c ∈ s.data, c ≠ '/') :
    webIdMatch ("/notes/" ++ s) = isDigitsL s.data := by
  unfold webIdMatch
  rw [String.data_append, split_web_path s.data hs]
  rfl

theorem webEditMatch_web_seg (s : String) (hs : ∀ c ∈ s.data, c ≠ '/') :
    webEditMatch ("/notes/" ++ s) = false := by
  unfold webEditMatch
  rw [String.data_append, split_web_path s.data hs]
  rfl

theorem webDeleteMatch_web_seg (s : String) (hs : ∀ c ∈ s.data, c ≠ '/') :
    webDeleteMatch ("/notes/" ++ s) = false := by
  unfold webDeleteMatch
  rw [String.data_append, split_web_path s.data hs]
  rfl

theorem pathSeg_web_seg (s : String) (hs : ∀ c ∈ s.data, c ≠ '/') :
    pathSeg ("/notes/" ++ s) 2 = s.data := by
  unfold pathSeg
  rw [String.data_append, split_web_path s.data hs]
  rfl

theorem startsWithApi_web_seg (s : String) :
    startsWithApi ("/notes/" ++ s) = false := by
  unfold startsWithApi
  rw [String.data_append]
  rfl

theorem web_seg_ne_root (s : String) : ("/notes/" ++ s) ≠ "/" := by
  apply String_ne_of_get 1
  rw [String.data_append]
  rw [show ("/notes/".data ++ s.data).get? 1 = some 'n' from rfl]
  decide

theorem web_seg_ne_api (s : String) : ("/notes/" ++ s) ≠ "/api/notes" := by
  apply String_ne_of_get 1
  rw [String.data_append]
  rw [show ("/notes/".data ++ s.data).get? 1 = some 'n' from rfl]
  decide

theorem web_seg_ne_new (s : String) (h : s ≠ "new") :
    ("/notes/" ++ s) ≠ "/notes/new" := by
  intro he
  apply h
  have hd := congrArg String.data he
  rw [String.data_append] at hd
  have h2 : "/notes/".data ++ s.data = "/notes/".data ++ "new".data := hd
  exact String_eq_of_data (List.append_cancel_left h2)

theorem data_edit : ("/edit" : String).data = '/' :: ['e', 'd', 'i', 't'] := rfl

theorem data_delete :
    ("/delete" : String).data = '/' :: ['d', 'e', 'l', 'e', 't', 'e'] := rfl

theorem apiIdMatch_edit_seg (s : String) (hs : ∀ c ∈ s.data, c ≠ '/') :
    apiIdMatch ("/notes/" ++ s ++ "/edit") = false := by
  unfold apiIdMatch
  rw [String.data_append, String.data_append, data_edit,
    split_web_tail_path s.data hs _ (by decide)]
  rfl

theorem webIdMatch_edit_seg (s : String) (hs : ∀ c ∈ s.data, c ≠ '/') :
    webIdMatch ("/notes/" ++ s ++ "/edit") = false := by
  unfold webIdMatch
  rw [String.data_append, String.data_append, data_edit,
    split_web_tail_path s.data hs _ (by decide)]
  rfl

theorem webEditMatch_edit_seg (s : String) (hs : ∀ c ∈ s.data, c ≠ '/') :
    webEditMatch ("/notes/" ++ s ++ "/edit") = isDigitsL s.data := by
  unfold webEditMatch
  rw [String.data_append, String.data_append, data_edit,
    split_web_tail_path s.data hs _ (by decide)]
  rfl

theorem webDeleteMatch_edit_seg (s : String) (hs : ∀ c ∈ s.data, c ≠ '/') :
    webDeleteMatch ("/notes/" ++ s ++ "/edit") = false := by
  unfold webDeleteMatch
  rw [String.data_append, String.data_append, data_edit,
    split_web_tail_path s.data hs _ (by decide)]
  rfl

theorem pathSeg_edit_seg (s : String) (hs : ∀ c ∈ s.data, c ≠ '/') :
    pathSeg ("/notes/" ++ s ++ "/edit") 2 = s.data := by
  unfold pathSeg
  rw [String.data_append, String.data_append, data_edit,
    split_web_tail_path s.data hs _ (by decide)]
  rfl

theorem startsWithApi_edit_seg (s : String) :
    startsWithApi ("/notes/" ++ s ++ "/edit") = false := by
  unfold startsWithApi
  rw [String.data_append, String.data_append]
  rfl

theorem edit_seg_ne_root (s : String) : ("/notes/" ++ s ++ "/edit") ≠ "/" := by
  apply String_ne_of_get 1
  rw [String.data_append, String.data_append]
  rw [show ("/notes/".data ++ s.data ++ "/edit".data).get? 1 = some 'n' from rfl]
  decide

theorem edit_seg_ne_api (s : String) : ("/notes/" ++ s ++ "/edit") ≠ "/api/notes" := by
  apply String_ne_of_get 1
  rw [String.data_append, String.data_append]
  rw [show ("/notes/".data ++ s.data ++ "/edit".data).get? 1 = some 'n' from rfl]
  decide

theorem edit_seg_ne_new (s : String) : ("/notes/" ++ s ++ "/edit") ≠ "/notes/new" := by
  apply String_ne_of_len
  rw [String.data_append, String.data_append]
  simp only [List.length_append]
  rw [show ("/notes/" : String).data.length = 7 from rfl,
    show ("/edit" : String).data.length = 5 from rfl,
    show ("/notes/new" : String).data.length = 10 from rfl]
  omega

theorem apiIdMatch_delete_seg (s : String) (hs : ∀ c ∈ s.data, c ≠ '/') :
    apiIdMatch ("/notes/" ++ s ++ "/delete") = false := by
  unfold apiIdMatch
  rw [String.data_append, String.data_append, data_delete,
    split_web_tail_path s.data hs _ (by decide)]
  rfl

theorem webIdMatch_delete_seg (s : String) (hs : ∀ c ∈ s.data, c ≠ '/') :
    webIdMatch ("/notes/" ++ s ++ "/delete") = false := by
  unfold webIdMatch
  rw [String.data_append, String.data_append, data_delete,
    split_web_tail_path s.data hs _ (by decide)]
  rfl

theorem webEditMatch_delete_seg (s : String) (hs : ∀ c ∈ s.data, c ≠ '/') :
    webEditMatch ("/notes/" ++ s ++ "/delete") = false := by
  unfold webEditMatch
  rw [String.data_append, String.data_append, data_delete,
    split_web_tail_path s.data hs _ (by decide)]
  rfl

theorem webDeleteMatch_delete_seg (s : String) (hs : ∀ c ∈ s.data, c ≠ '/') :
    webDeleteMatch ("/notes/" ++ s ++ "/delete") = isDigitsL s.data := by
  unfold webDeleteMatch
  rw [String.data_append, String.data_append, data_delete,
    split_web_tail_path s.data hs _ (by decide)]
  rfl

theorem pathSeg_delete_seg (s : String) (hs : ∀ c ∈ s.data, c ≠ '/') :
    pathSeg ("/notes/" ++ s ++ "/delete") 2 = s.data := by
  unfold pathSeg
  rw [String.data_append, String.data_append, data_delete,
    split_web_tail_path s.data hs _ (by decide)]
  rfl

theorem startsWithApi_delete_seg (s : String) :
    startsWithApi ("/notes/" ++ s ++ "/delete") = false := by
  unfold startsWithApi
  rw [String.data_append, String.data_append]
  rfl

theorem delete_seg_ne_root (s : String) : ("/notes/" ++ s ++ "/delete") ≠ "/" := by
  apply String_ne_of_get 1
  rw [String.data_append, String.data_append]
  rw [show ("/notes/".data ++ s.data ++ "/delete".data).get? 1 = some 'n' from rfl]
  decide

theorem delete_seg_ne_api (s : String) : ("/notes/" ++ s ++ "/delete") ≠ "/api/notes" := by
  apply String_ne_of_get 1
  rw [String.data_append, String.data_append]
  rw [show ("/notes/".data ++ s.data ++ "/delete".data).get? 1 = some 'n' from rfl]
  decide

theorem delete_seg_ne_new (s : String) :
    ("/notes/" ++ s ++ "/delete") ≠ "/notes/new" := by
  apply String_ne_of_len
  rw [String.data_append, String.data_append]
  simp only [List.length_append]
  rw [show ("/notes/" : String).data.length = 7 from rfl,
    show ("/delete" : String).data.length = 7 from rfl,
    show ("/notes/new" : String).data.length = 10 from rfl]
  omega

/-! ### Facts about numeric path segments as strings -/

theorem natToStr_data (n : Nat) : (natToStr n).data = natChars n := rfl

theorem natToStr_noSlash (n : Nat) : ∀ c ∈ (natToStr n).data, c ≠ '/' :=
  fun c hc => isDigit_ne_slash c (natChars_all_digits n c hc)

theorem natToStr_ne_new (n : Nat) : natToStr n ≠ "new" := by
  intro h
  have hd := congrArg String.data h
  have hn : 'n' ∈ natChars n := by
    rw [show natChars n = (natToStr n).data from rfl, hd]
    decide
  exact absurd (natChars_all_digits n 'n' hn) (by decide)

/-! ### Evaluating the request handler on each route -/

theorem handle_api_list (data : Obj) (now : Int) (notes : List Obj) :
    handleRequest "GET" "/api/notes" data now notes =
      (Response.jsonArr 200 notes, notes) := rfl

theorem handle_api_create (data : Obj) (now : Int) (notes : List Obj) :
    handleRequest "POST" "/api/notes" data now notes =
      (Response.jsonObj 201 (mkNote now data), notes ++ [mkNote now data]) := rfl

theorem handle_web_create (data : Obj) (now : Int) (notes : List Obj) :
    handleRequest "POST" "/notes/new" data now notes =
      (Response.redirect "/", notes ++ [mkNote now data]) := rfl

theorem handle_api_get (id : Nat) (data : Obj) (now : Int) (notes : List Obj) :
    handleRequest "GET" ("/api/notes/" ++ natToStr id) data now notes =
      (match findNote (id : Int) notes with
       | none => (notFoundJson, notes)
       | some note => (Response.jsonObj 200 note, notes)) := by
  have hs := natToStr_noSlash id
  have hmatch : apiIdMatch ("/api/notes/" ++ natToStr id) = true := by
    rw [apiIdMatch_api_seg _ hs, natToStr_data]
    exact isDigitsL_natChars id
  have hid : apiId ("/api/notes/" ++ natToStr id) = (id : Int) := by
    unfold apiId
    rw [pathSeg_api_seg _ hs, natToStr_data, digitsToNat_natChars]
  simp [handleRequest, serveApi, startsWithApi_api_seg, hmatch, hid,
    api_seg_ne_api _]
  cases hfind : findNote (id : Int) notes with
  | none => rfl
  | some note => rfl

theorem handle_api_put (id : Nat) (data : Obj) (now : Int) (notes : List Obj) :
    handleRequest "PUT" ("/api/notes/" ++ natToStr id) data now notes =
      (match findNoteWithIdx (id : Int) notes with
       | none => (notFoundJson, notes)
       | some (idx, old) =>
         (Response.jsonObj 200 (spreadMerge old data),
           notes.set idx (spreadMerge old data))) := by
  have hs := natToStr_noSlash id
  have hmatch : apiIdMatch ("/api/notes/" ++ natToStr id) = true := by
    rw [apiIdMatch_api_seg _ hs, natToStr_data]
    exact isDigitsL_natChars id
  have hid : apiId ("/api/notes/" ++ natToStr id) = (id : Int) := by
    unfold apiId
    rw [pathSeg_api_seg _ hs, natToStr_data, digitsToNat_natChars]
  simp [handleRequest, serveApi, startsWithApi_api_seg, hmatch, hid,
    api_seg_ne_api _]
  cases hfind : findNoteWithIdx (id : Int) notes with
  | none => rfl
  | some q => cases q; rfl

theorem handle_api_delete (id : Nat) (data : Obj) (now : Int) (notes : List Obj) :
    handleRequest "DELETE" ("/api/notes/" ++ natToStr id) data now notes =
      (match findNoteWithIdx (id : Int) notes with
       | none => (notFoundJson, notes)
       | some (idx, old) =>
         (Response.jsonObj 200 old, notes.eraseIdx idx)) := by
  have hs := natToStr_noSlash id
  have hmatch : apiIdMatch ("/api/notes/" ++ natToStr id) = true := by
    rw [apiIdMatch_api_seg _ hs, natToStr_data]
    exact isDigitsL_natChars id
  have hid : apiId ("/api/notes/" ++ natToStr id) = (id : Int) := by
    unfold apiId
    rw [pathSeg_api_seg _ hs, natToStr_data, digitsToNat_natChars]
  simp [handleRequest, serveApi, startsWithApi_api_seg, hmatch, hid,
    api_seg_ne_api _]
  cases hfind : findNoteWithIdx (id : Int) notes with
  | none => rfl
  | some q => cases q; rfl

theorem handle_web_detail (id : Nat) (data : Obj) (now : Int) (notes : List Obj) :
    handleRequest "GET" ("/notes/" ++ natToStr id) data now notes =
      (match findNote (id : Int) notes with
       | none => (notFoundPage, notes)
       | some note =>
         (Response.page 200 (jsShow (getField note "title"))
           (renderNoteDetail note), notes)) := by
  have hs := natToStr_noSlash id
  have hmatch : webIdMatch ("/notes/" ++ natToStr id) = true := by
    rw [webIdMatch_web_seg _ hs, natToStr_data]
    exact isDigitsL_natChars id
  have hid : webId ("/notes/" ++ natToStr id) = (id : Int) := by
    unfold webId
    rw [pathSeg_web_seg _ hs, natToStr_data, digitsToNat_natChars]
  simp [handleRequest, serveWeb, startsWithApi_web_seg, hmatch, hid,
    web_seg_ne_root _, web_seg_ne_new _ (natToStr_ne_new id)]
  cases hfind : findNote (id : Int) notes with
  | none => rfl
  | some note => rfl

theorem handle_web_edit_post (id : Nat) (data : Obj) (now : Int) (notes : List Obj) :
    handleRequest "POST" ("/notes/" ++ natToStr id ++ "/edit") data now notes =
      (match findNoteWithIdx (id : Int) notes with
       | none => (notFoundPage, notes)
       | some (idx, old) =>
         (Response.redirect ("/notes/" ++ natToStr id),
           notes.set idx (spreadMerge old data))) := by
  have hs := natToStr_noSlash id
  have hmatch : webEditMatch ("/notes/" ++ natToStr id ++ "/edit") = true := by
    rw [webEditMatch_edit_seg _ hs, natToStr_data]
    exact isDigitsL_natChars id
  have hid : webId ("/notes/" ++ natToStr id ++ "/edit") = (id : Int) := by
    unfold webId
    rw [pathSeg_edit_seg _ hs, natToStr_data, digitsToNat_natChars]
  simp [handleRequest, serveWeb, startsWithApi_edit_seg, hmatch, hid,
    edit_seg_ne_new _, intToStr_natCast]
  cases hfind : findNoteWithIdx (id : Int) notes with
  | none => rfl
  | some q => cases q; rfl

theorem handle_web_delete_post (id : Nat) (data : Obj) (now : Int) (notes : List Obj) :
    handleRequest "POST" ("/notes/" ++ natToStr id ++ "/delete") data now notes =
      (match findNoteWithIdx (id : Int) notes with
       | none => (notFoundPage, notes)
       | some (idx, _) => (Response.redirect "/", notes.eraseIdx idx)) := by
  have hs := natToStr_noSlash id
  have hmatch : webDeleteMatch ("/notes/" ++ natToStr id ++ "/delete") = true := by
    rw [webDeleteMatch_delete_seg _ hs, natToStr_data]
    exact isDigitsL_natChars id
  have hid : webId ("/notes/" ++ natToStr id ++ "/delete") = (id : Int) := by
    unfold webId
    rw [pathSeg_delete_seg _ hs, natToStr_data, digitsToNat_natChars]
  simp [handleRequest, serveWeb, startsWithApi_delete_seg, hmatch, hid,
    delete_seg_ne_new _, webEditMatch_delete_seg _ hs]
  cases hfind : findNoteWithIdx (id : Int) notes with
  | none => rfl
  | some q => cases q; rfl

/-! ### Catch-all evaluation for non-numeric id segments -/

theorem catchall_api_seg (m s : String) (hs : ∀ c ∈ s.data, c ≠ '/')
    (hd : isDigitsL s.data = false) (data : Obj) (now : Int) (notes : List Obj) :
    handleRequest m ("/api/notes/" ++ s) data now notes = (catchAllPage, notes) := by
  simp [handleRequest, serveApi, serveWeb, startsWithApi_api_seg,
    apiIdMatch_api_seg s hs, hd, webIdMatch_api_seg s hs, webEditMatch_api_seg s hs,
    webDeleteMatch_api_seg s hs, api_seg_ne_root s, api_seg_ne_api s, api_seg_ne_new s]

theorem catchall_web_seg (m s : String) (hs : ∀ c ∈ s.data, c ≠ '/')
    (hd : isDigitsL s.data = false) (hnew : s ≠ "new")
    (data : Obj) (now : Int) (notes : List Obj) :
    handleRequest m ("/notes/" ++ s) data now notes = (catchAllPage, notes) := by
  simp [handleRequest, serveWeb, startsWithApi_web_seg,
    webIdMatch_web_seg s hs, hd, webEditMatch_web_seg s hs,
    webDeleteMatch_web_seg s hs, web_seg_ne_root s, web_seg_ne_new s hnew]

theorem catchall_edit_seg (m s : String) (hs : ∀ c ∈ s.data, c ≠ '/')
    (hd : isDigitsL s.data = false) (data : Obj) (now : Int) (notes : List Obj) :
    handleRequest m ("/notes/" ++ s ++ "/edit") data now notes = (catchAllPage, notes) := by
  simp [handleRequest, serveWeb, startsWithApi_edit_seg,
    webIdMatch_edit_seg s hs, hd, webEditMatch_edit_seg s hs,
    webDeleteMatch_edit_seg s hs, edit_seg_ne_root s, edit_seg_ne_new s]

theorem catchall_delete_seg (m s : String) (hs : ∀ c ∈ s.data, c ≠ '/')
    (hd : isDigitsL s.data = false) (data : Obj) (now : Int) (notes : List Obj) :
    handleRequest m ("/notes/" ++ s ++ "/delete") data now notes = (catchAllPage, notes) := by
  simp [handleRequest, serveWeb, startsWithApi_delete_seg,
    webIdMatch_delete_seg s hs, hd, webEditMatch_delete_seg s hs,
    webDeleteMatch_delete_seg s hs, delete_seg_ne_root s, delete_seg_ne_new s]

/-! ### The persisted file: serialization (`JSON.stringify(notes, null, 2)`)

The store file is written by `writeNotes` as `JSON.stringify(notes,
null, 2)` (line 22) and read back through `JSON.parse` (line 15).  Both
are modelled at the character level over the note domain (a JSON array
of flat objects with number/string/boolean/null fields): `notesChars`
produces exactly the pretty-printed text, `parseNotes` is a
whitespace-tolerant JSON parser for that domain (`JSON.parse` accepts
all of its inputs; on documents outside the note-array domain - nested
structures, fractional numbers - the model declines where JavaScript
would produce values outside the embedded data model). -/

/-- Left brace character (written via its code point). -/
def lbraceC : Char := Char.ofNat 123

/-- Right brace character (written via its code point). -/
def rbraceC : Char := Char.ofNat 125

/-- Lower-case hexadecimal digit character for `d < 16`. -/
def hexDigitChar (d : Nat) : Char :=
  if d < 10 then digitChar d else Char.ofNat (87 + d)

/-- `JSON.stringify` escaping of one character inside a string literal. -/
def escChar (c : Char) : List Char :=
  if c = '"' then ['\\', '"']
  else if c = '\\' then ['\\', '\\']
  else if c = '\x08' then ['\\', 'b']
  else if c = '\x0c' then ['\\', 'f']
  else if c = '\n' then ['\\', 'n']
  else if c = '\r' then ['\\', 'r']
  else if c = '\t' then ['\\', 't']
  else if c.toNat < 32 then
    ['\\', 'u', '0', '0', hexDigitChar (c.toNat / 16), hexDigitChar (c.toNat % 16)]
  else [c]

/-- A JSON string literal: `"` + escaped characters + `"`. -/
def strChars (s : String) : List Char :=
  '"' :: (s.data.map escChar).flatten ++ ['"']

/-- A JSON primitive value. -/
def valChars : JVal → List Char
  | JVal.num n => intChars n
  | JVal.str s => strChars s
  | JVal.bool b => if b then ['t', 'r', 'u', 'e'] else ['f', 'a', 'l', 's', 'e']
  | JVal.null => ['n', 'u', 'l', 'l']

/-- Interleave a separator between pieces (the commas and newlines of
the pretty printer). -/
def sepByL (sep : List Char) : List (List Char) → List Char
  | [] => []
  | [x] => x
  | x :: xs => x ++ sep ++ sepByL sep xs

/-- One object field at the pretty printer's field indentation. -/
def fieldChars (kv : String × JVal) : List Char :=
  ' ' :: ' ' :: ' ' :: ' ' :: (strChars kv.1 ++ ':' :: ' ' :: valChars kv.2)

/-- One note object, pretty-printed at element indentation. -/
def objChars (o : Obj) : List Char :=
  if o.isEmpty then [lbraceC, rbraceC]
  else lbraceC :: '\n' :: (sepByL [',', '\n'] (o.map fieldChars) ++
    '\n' :: ' ' :: ' ' :: rbraceC :: [])

/-- The whole file text: `JSON.stringify(notes, null, 2)`. -/
def notesChars (ns : List Obj) : List Char :=
  if ns.isEmpty then ['[', ']']
  else '[' :: '\n' :: (sepByL [',', '\n'] (ns.map (fun o => ' ' :: ' ' :: objChars o)) ++
    '\n' :: ']' :: [])

/-- `writeNotes(notes)` (lines 21-23): the file content written, namely
`JSON.stringify(notes, null, 2)`. -/
def writeNotes (ns : List Obj) : String := ⟨notesChars ns⟩

/-- Compact `JSON.stringify` of an object (the form used for response
bodies). -/
def objCharsCompact (o : Obj) : List Char :=
  lbraceC :: sepByL [','] (o.map (fun kv => strChars kv.1 ++ ':' :: valChars kv.2)) ++ [rbraceC]

/-- `JSON.stringify({ error: msg })`: the body of the 404 JSON responses. -/
def errBodyString (msg : String) : String :=
  ⟨objCharsCompact [("error", JVal.str msg)]⟩

/-! ### The persisted file: parsing (`JSON.parse`) -/

/-- JSON whitespace. -/
def isWsChar (c : Char) : Bool :=
  c = ' ' || c = '\n' || c = '\t' || c = '\r'

/-- Drop leading JSON whitespace. -/
def skipWs : List Char → List Char
  | [] => []
  | c :: cs => if isWsChar c then skipWs cs else c :: cs

/-- Hexadecimal digit value. -/
def hexVal (c : Char) : Option Nat :=
  if '0' ≤ c ∧ c ≤ '9' then some (c.toNat - 48)
  else if 'a' ≤ c ∧ c ≤ 'f' then some (c.toNat - 87)
  else if 'A' ≤ c ∧ c ≤ 'F' then some (c.toNat - 55)
  else none

/-- Single-character string escapes. -/
def unescape1 (e : Char) : Option Char :=
  if e = '"' then some '"'
  else if e = '\\' then some '\\'
  else if e = '/' then some '/'
  else if e = 'b' then some '\x08'
  else if e = 'f' then some '\x0c'
  else if e = 'n' then some '\n'
  else if e = 'r' then some '\r'
  else if e = 't' then some '\t'
  else none

/-- Parse the body of a string literal after the opening quote, up to
and including the closing quote; returns the contents and what follows. -/
def parseStrBody : List Char → Option (List Char × List Char)
  | [] => none
  | c :: cs =>
    if c = '"' then some ([], cs)
    else if c = '\\' then
      match cs with
      | [] => none
      | 'u' :: h1 :: h2 :: h3 :: h4 :: cs2 =>
        match hexVal h1, hexVal h2, hexVal h3, hexVal h4 with
        | some a, some b, some c1, some d =>
          match parseStrBody cs2 with
          | some (s, r) => some (Char.ofNat (((a * 16 + b) * 16 + c1) * 16 + d) :: s, r)
          | none => none
        | _, _, _, _ => none
      | e :: cs1 =>
        match unescape1 e with
        | some ch =>
          match parseStrBody cs1 with
          | some (s, r) => some (ch :: s, r)
          | none => none
        | none => none
    else
      match parseStrBody cs with
      | some (s, r) => some (c :: s, r)
      | none => none

/-- Take the maximal run of leading decimal digits. -/
def takeDigits : List Char → List Char × List Char
  | [] => ([], [])
  | c :: cs =>
    if c.isDigit then
      ((c :: (takeDigits cs).1), (takeDigits cs).2)
    else ([], c :: cs)

/-- Parse a nonempty digit run as a natural number. -/
def parseNat (l : List Char) : Option (Nat × List Char) :=
  if (takeDigits l).1.isEmpty then none
  else some (digitsToNat (takeDigits l).1, (takeDigits l).2)

/-- Parse one primitive JSON value. -/
def parseVal : List Char → Option (JVal × List Char)
  | [] => none
  | c :: cs =>
    if c = '"' then
      match parseStrBody cs with
      | some (s, r) => some (JVal.str ⟨s⟩, r)
      | none => none
    else if c = '-' then
      match parseNat cs with
      | some (n, r) => some (JVal.num (-(n : Int)), r)
      | none => none
    else if c.isDigit then
      match parseNat (c :: cs) with
      | some (n, r) => some (JVal.num (n : Int), r)
      | none => none
    else
      match c :: cs with
      | 't' :: 'r' :: 'u' :: 'e' :: r => some (JVal.bool true, r)
      | 'f' :: 'a' :: 'l' :: 's' :: 'e' :: r => some (JVal.bool false, r)
      | 'n' :: 'u' :: 'l' :: 'l' :: r => some (JVal.null, r)
      | _ => none

/-- Parse one `"key": value` field (leading whitespace allowed). -/
def parseField (l : List Char) : Option ((String × JVal) × List Char) :=
  match skipWs l with
  | c :: cs =>
    if c = '"' then
      match parseStrBody cs with
      | some (k, r) =>
        match skipWs r with
        | ':' :: r2 =>
          match parseVal (skipWs r2) with
          | some (v, r3) => some ((⟨k⟩, v), r3)
          | none => none
        | _ => none
      | none => none
    else none
  | [] => none

/-- Parse the comma-separated fields of a nonempty object up to and
including the closing brace (fuelled loop). -/
def parseFieldsLoop : Nat → List Char → Option (Obj × List Char)
  | 0, _ => none
  | f + 1, l =>
    match parseField l with
    | some (kv, r) =>
      match skipWs r with
      | c :: r2 =>
        if c = ',' then
          match parseFieldsLoop f r2 with
          | some (o, rr) => some (kv :: o, rr)
          | none => none
        else if c = rbraceC then some ([kv], r2)
        else none
      | [] => none
    | none => none

/-- Parse one JSON object (leading whitespace allowed). -/
def parseObjL (l : List Char) : Option (Obj × List Char) :=
  match skipWs l with
  | c :: cs =>
    if c = lbraceC then
      match skipWs cs with
      | c2 :: cs2 =>
        if c2 = rbraceC then some ([], cs2)
        else parseFieldsLoop (l.length + 1) cs
      | [] => none
    else none
  | [] => none

/-- Parse the comma-separated objects of a nonempty array up to and
including the closing bracket (fuelled loop). -/
def parseElemsLoop : Nat → List Char → Option (List Obj × List Char)
  | 0, _ => none
  | f + 1, l =>
    match parseObjL l with
    | some (o, r) =>
      match skipWs r with
      | c :: r2 =>
        if c = ',' then
          match parseElemsLoop f r2 with
          | some (os, rr) => some (o :: os, rr)
          | none => none
        else if c = ']' then some ([o], r2)
        else none
      | [] => none
    | none => none

/-- `JSON.parse` of the file content, over the note-array domain; the
whole input must be consumed (up to trailing whitespace). -/
def parseNotes (raw : String) : Option (List Obj) :=
  match skipWs raw.data with
  | c :: cs =>
    if c = '[' then
      match skipWs cs with
      | c2 :: cs2 =>
        if c2 = ']' then (if (skipWs cs2).isEmpty then some [] else none)
        else
          match parseElemsLoop (cs.length + 1) cs with
          | some (ns, rest) => if (skipWs rest).isEmpty then some ns else none
          | none => none
      | [] => none
    else none
  | [] => none

/-! ### The Store (`readNotes` / `writeNotes`) -/

/-- The outcome of `fs.readFile(dataFile, 'utf8')`: success with the
file text, failure with code `ENOENT` (the backing file does not
exist), or any other failure. -/
inductive ReadOutcome where
  | ok (raw : String)
  | errENOENT
  | errOther
  deriving DecidableEq

/-- An error propagated out of `readNotes`: a rethrown file-system
error (`throw e` on a non-`ENOENT` code) or a `JSON.parse` failure
(a `SyntaxError` has no `code` field, so it is rethrown too). -/
inductive StoreErr where
  | fsError
  | parseError
  deriving DecidableEq

/-- `readNotes()` (lines 12-20): `try { return JSON.parse(await
fs.readFile(...)) } catch (e) { if (e.code === 'ENOENT') return [];
throw e }`. -/
def readNotes : ReadOutcome → Except StoreErr (List Obj)
  | ReadOutcome.ok raw =>
    match parseNotes raw with
    | some ns => Except.ok ns
    | none => Except.error StoreErr.parseError
  | ReadOutcome.errENOENT => Except.ok []
  | ReadOutcome.errOther => Except.error StoreErr.fsError

example : writeNotes [] = "[]" := by decide
example :
    writeNotes [[("id", JVal.num 1), ("title", JVal.str "a")]] =
      "[\n  \x7b\n    \"id\": 1,\n    \"title\": \"a\"\n  \x7d\n]" := by decide
example : parseNotes "[]" = some [] := by decide
example : parseNotes " [ ] " = some [] := by decide
example : parseNotes "[\n  \x7b\n    \"id\": 1,\n    \"title\": \"a\"\n  \x7d\n]" =
    some [[("id", JVal.num 1), ("title", JVal.str "a")]] := by decide
example : parseNotes "[\x7b\"id\":-7,\"ok\":true,\"x\":null\x7d]" =
    some [[("id", JVal.num (-7)), ("ok", JVal.bool true), ("x", JVal.null)]] := by decide
example : parseNotes "[\x7b\"t\":\"a\\n\\u0001\\\"b\"\x7d]" =
    some [[("t", JVal.str "a\n\x01\"b")]] := by decide
example : parseNotes "nope" = none := by decide
example : parseNotes "[\x7b\x7d]" = some [[]] := by decide
example : errBodyString "Note not found" = "\x7b\"error\":\"Note not found\"\x7d" := by decide
example : parseNotes (writeNotes [[("id", JVal.num 170), ("title", JVal.str "T\"x")], []]) =
    some [[("id", JVal.num 170), ("title", JVal.str "T\"x")], []] := by decide

/-! ### Round trip: the pretty-printed file parses back to the same notes -/

theorem skipWs_cons_ws (c : Char) (h : isWsChar c = true) (l : List Char) :
    skipWs (c :: l) = skipWs l := by
  simp [skipWs, h]

theorem skipWs_cons_not (c : Char) (h : isWsChar c = false) (l : List Char) :
    skipWs (c :: l) = c :: l := by
  simp [skipWs, h]

theorem hexVal_hexDigitChar (d : Nat) (h : d < 16) :
    hexVal (hexDigitChar d) = some d := by
  interval_cases d <;> decide

theorem parseStrBody_plain (c : Char) (h1 : c ≠ '"') (h2 : c ≠ '\\') (l : List Char) :
    parseStrBody (c :: l) =
      (match parseStrBody l with
       | some (s, r) => some (c :: s, r)
       | none => none) := by
  conv_lhs => rw [parseStrBody.eq_def]
  simp [h1, h2]

theorem parseStrBody_escaped (s : List Char) (rest : List Char) :
    parseStrBody ((s.map escChar).flatten ++ '"' :: rest) = some (s, rest) := by
  induction s with
  | nil =>
    simp only [List.map_nil, List.flatten_nil, List.nil_append]
    conv_lhs => rw [parseStrBody.eq_def]
    simp
  | cons c cs ih =>
    simp only [List.map_cons, List.flatten_cons, List.append_assoc]
    by_cases h1 : c = '"'
    · subst h1; simp [escChar, parseStrBody, unescape1, ih]
    · by_cases h2 : c = '\\'
      · subst h2; simp [escChar, parseStrBody, unescape1, ih]
      · by_cases h3 : c = '\x08'
        · subst h3; simp [escChar, parseStrBody, unescape1, ih]
        · by_cases h4 : c = '\x0c'
          · subst h4; simp [escChar, parseStrBody, unescape1, ih]
          · by_cases h5 : c = '\n'
            · subst h5; simp [escChar, parseStrBody, unescape1, ih]
            · by_cases h6 : c = '\r'
              · subst h6; simp [escChar, parseStrBody, unescape1, ih]
              · by_cases h7 : c = '\t'
                · subst h7; simp [escChar, parseStrBody, unescape1, ih]
                · by_cases h8 : c.toNat < 32
                  · have hdiv : c.toNat / 16 < 16 := by omega
                    have hmod : c.toNat % 16 < 16 := by omega
                    have harith :
                        ((0 * 16 + 0) * 16 + c.toNat / 16) * 16 + c.toNat % 16 = c.toNat := by
                      omega
                    simp [escChar, h1, h2, h3, h4, h5, h6, h7, h8, parseStrBody,
                      hexVal_hexDigitChar _ hdiv, hexVal_hexDigitChar _ hmod,
                      show hexVal '0' = some 0 from rfl, ih, harith, Char.ofNat_toNat]
                    rw [show c.toNat / 16 * 16 + c.toNat % 16 = c.toNat from by omega,
                      Char.ofNat_toNat]
                  · simp [escChar, h1, h2, h3, h4, h5, h6, h7, h8]
                    rw [parseStrBody_plain c h1 h2, ih]

/-- Head of the remaining input is not a digit (so a number stops there). -/
def headNotDigit (l : List Char) : Bool :=
  match l with
  | [] => true
  | c :: _ => !c.isDigit

theorem digit_ne (c c₀ : Char) (h : c.isDigit = true) (h₀ : c₀.isDigit = false) :
    c ≠ c₀ := by
  intro he
  subst he
  simp [h] at h₀

theorem takeDigits_split (l rest : List Char) (hl : ∀ c ∈ l, c.isDigit = true)
    (hrest : headNotDigit rest = true) :
    takeDigits (l ++ rest) = (l, rest) := by
  induction l with
  | nil =>
    cases rest with
    | nil => rfl
    | cons c cs =>
      have hc : c.isDigit = false := by simpa [headNotDigit] using hrest
      simp [takeDigits, hc]
  | cons c cs ih =>
    have hc := hl c (by simp)
    simp [takeDigits, hc, ih (fun x hx => hl x (by simp [hx]))]

theorem parseNat_natChars (n : Nat) (rest : List Char)
    (hrest : headNotDigit rest = true) :
    parseNat (natChars n ++ rest) = some (n, rest) := by
  have hne : (natChars n).isEmpty = false := by
    cases h : natChars n with
    | nil => exact absurd h (natChars_ne_nil n)
    | cons a b => rfl
  simp [parseNat, takeDigits_split _ _ (natChars_all_digits n) hrest, hne,
    digitsToNat_natChars]

theorem parseVal_num (i : Int) (rest : List Char) (hrest : headNotDigit rest = true) :
    parseVal (intChars i ++ rest) = some (JVal.num i, rest) := by
  by_cases hi : i < 0
  · rw [show intChars i = '-' :: natChars i.natAbs from by simp [intChars, hi],
      List.cons_append]
    conv_lhs => rw [parseVal.eq_def]
    simp [parseNat_natChars _ _ hrest]
    rw [abs_of_nonpos (le_of_lt hi)]
    exact neg_neg i
  · obtain ⟨c, t, hct⟩ := List.exists_cons_of_ne_nil (natChars_ne_nil i.natAbs)
    have hcd : c.isDigit = true := natChars_all_digits _ c (by rw [hct]; simp)
    have h1 : c ≠ '"' := digit_ne c '"' hcd (by decide)
    have h2 : c ≠ '-' := digit_ne c '-' hcd (by decide)
    rw [show intChars i = natChars i.natAbs from by simp [intChars, hi], hct,
      List.cons_append]
    conv_lhs => rw [parseVal.eq_def]
    simp only [h1, h2, hcd, if_false, if_true, ite_true, ite_false]
    rw [show c :: (t ++ rest) = natChars i.natAbs ++ rest from by rw [hct]; rfl,
      parseNat_natChars _ _ hrest]
    simp
    exact not_lt.mp hi

theorem parseVal_str (s : String) (rest : List Char) :
    parseVal (strChars s ++ rest) = some (JVal.str s, rest) := by
  cases s with
  | mk l =>
    rw [show strChars ⟨l⟩ ++ rest = '"' :: ((l.map escChar).flatten ++ '"' :: rest) from by
      simp [strChars]]
    conv_lhs => rw [parseVal.eq_def]
    simp [parseStrBody_escaped]

theorem parseVal_chars (v : JVal) (rest : List Char)
    (hrest : headNotDigit rest = true) :
    parseVal (valChars v ++ rest) = some (v, rest) := by
  cases v with
  | num i => exact parseVal_num i rest hrest
  | str s => exact parseVal_str s rest
  | bool b =>
    cases b
    · conv_lhs => rw [parseVal.eq_def]
      simp [valChars]
    · conv_lhs => rw [parseVal.eq_def]
      simp [valChars]
  | null =>
    conv_lhs => rw [parseVal.eq_def]
    simp [valChars]

theorem not_ws_of_digit (c : Char) (h : c.isDigit = true) : isWsChar c = false := by
  have h1 : c ≠ ' ' := digit_ne c ' ' h (by decide)
  have h2 : c ≠ '\n' := digit_ne c '\n' h (by decide)
  have h3 : c ≠ '\t' := digit_ne c '\t' h (by decide)
  have h4 : c ≠ '\r' := digit_ne c '\r' h (by decide)
  simp [isWsChar, h1, h2, h3, h4]

/-- All characters are JSON whitespace. -/
def allWsB (l : List Char) : Bool := l.all isWsChar

theorem skipWs_append_ws (pre l : List Char) (h : allWsB pre = true) :
    skipWs (pre ++ l) = skipWs l := by
  induction pre with
  | nil => rfl
  | cons c cs ih =>
    have hc : isWsChar c = true := by
      have := h
      simp [allWsB, List.all_cons] at this
      exact this.1
    have hcs : allWsB cs = true := by
      have := h
      simp [allWsB, List.all_cons] at this
      simpa [allWsB] using this.2
    rw [List.cons_append, skipWs_cons_ws c hc, ih hcs]

theorem skipWs_valChars (v : JVal) (t : List Char) :
    skipWs (valChars v ++ t) = valChars v ++ t := by
  cases v with
  | num i =>
    by_cases hi : i < 0
    · rw [show valChars (JVal.num i) = '-' :: natChars i.natAbs from by
        simp [valChars, intChars, hi], List.cons_append]
      exact skipWs_cons_not _ (by decide) _
    · obtain ⟨c, t', hct⟩ := List.exists_cons_of_ne_nil (natChars_ne_nil i.natAbs)
      have hcd : c.isDigit = true := natChars_all_digits _ c (by rw [hct]; simp)
      rw [show valChars (JVal.num i) = natChars i.natAbs from by
        simp [valChars, intChars, hi], hct, List.cons_append]
      exact skipWs_cons_not _ (not_ws_of_digit c hcd) _
  | str s =>
    rw [show valChars (JVal.str s) = '"' :: ((s.data.map escChar).flatten ++ ['"']) from by
      simp [valChars, strChars], List.cons_append]
    exact skipWs_cons_not _ (by decide) _
  | bool b =>
    cases b
    · exact skipWs_cons_not _ (by decide) _
    · exact skipWs_cons_not _ (by decide) _
  | null => exact skipWs_cons_not _ (by decide) _

theorem parseField_pretty (pre : List Char) (hpre : allWsB pre = true)
    (kv : String × JVal) (rest : List Char) (hrest : headNotDigit rest = true) :
    parseField (pre ++ (fieldChars kv ++ rest)) = some (kv, rest) := by
  obtain ⟨k, v⟩ := kv
  cases k with
  | mk kl =>
    have hskip : skipWs (fieldChars (⟨kl⟩, v) ++ rest) =
        '"' :: ((kl.map escChar).flatten ++
          ('"' :: (':' :: ' ' :: (valChars v ++ rest)))) := by
      rw [show fieldChars (⟨kl⟩, v) ++ rest =
          ' ' :: ' ' :: ' ' :: ' ' :: ('"' :: ((kl.map escChar).flatten ++
            ('"' :: (':' :: ' ' :: (valChars v ++ rest))))) from by
        simp [fieldChars, strChars]]
      rw [skipWs_cons_ws _ (by decide), skipWs_cons_ws _ (by decide),
        skipWs_cons_ws _ (by decide), skipWs_cons_ws _ (by decide),
        skipWs_cons_not _ (by decide)]
    unfold parseField
    rw [skipWs_append_ws _ _ hpre, hskip]
    simp only [if_pos rfl]
    rw [show (kl.map escChar).flatten ++ ('"' :: (':' :: ' ' :: (valChars v ++ rest))) =
        (kl.map escChar).flatten ++ '"' :: (':' :: ' ' :: (valChars v ++ rest)) from rfl,
      parseStrBody_escaped]
    have h1 : skipWs (':' :: ' ' :: (valChars v ++ rest)) =
        ':' :: ' ' :: (valChars v ++ rest) := skipWs_cons_not _ (by decide) _
    have h2 : skipWs (' ' :: (valChars v ++ rest)) = valChars v ++ rest := by
      rw [skipWs_cons_ws _ (by decide), skipWs_valChars]
    simp [h1, h2, parseVal_chars v rest hrest]

theorem skipWs_fieldChars (kv : String × JVal) (t : List Char) :
    skipWs (fieldChars kv ++ t) =
      '"' :: ((kv.1.data.map escChar).flatten ++
        ('"' :: (':' :: ' ' :: (valChars kv.2 ++ t)))) := by
  rw [show fieldChars kv ++ t =
      ' ' :: ' ' :: ' ' :: ' ' :: ('"' :: ((kv.1.data.map escChar).flatten ++
        ('"' :: (':' :: ' ' :: (valChars kv.2 ++ t))))) from by
    simp [fieldChars, strChars]]
  rw [skipWs_cons_ws _ (by decide), skipWs_cons_ws _ (by decide),
    skipWs_cons_ws _ (by decide), skipWs_cons_ws _ (by decide),
    skipWs_cons_not _ (by decide)]

theorem sepByL_cons_cons (sep : List Char) (x y : List Char) (t : List (List Char)) :
    sepByL sep (x :: y :: t) = x ++ (sep ++ sepByL sep (y :: t)) := by
  simp [sepByL, List.append_assoc]

theorem skipWs_sep_fields (kv : String × JVal) (o' : List (String × JVal))
    (t : List Char) :
    ∃ z, skipWs ('\n' :: (sepByL [',', '\n'] ((kv :: o').map fieldChars) ++ t)) =
      '"' :: z := by
  rw [skipWs_cons_ws _ (by decide)]
  cases o' with
  | nil =>
    simp only [List.map_cons, List.map_nil, sepByL]
    exact ⟨_, skipWs_fieldChars kv t⟩
  | cons kv2 t' =>
    rw [List.map_cons, List.map_cons, sepByL_cons_cons, List.append_assoc]
    exact ⟨_, skipWs_fieldChars kv _⟩

theorem fieldChars_length (kv : String × JVal) : 1 ≤ (fieldChars kv).length := by
  simp [fieldChars]

theorem sepByL_length_ge (sep : List Char) (pieces : List (List Char))
    (h : ∀ p ∈ pieces, 1 ≤ p.length) :
    pieces.length ≤ (sepByL sep pieces).length := by
  induction pieces with
  | nil => simp [sepByL]
  | cons x xs ih =>
    cases xs with
    | nil => simpa [sepByL] using h x (by simp)
    | cons y t =>
      have hx := h x (by simp)
      have hrec := ih (fun p hp => h p (by simp [hp]))
      rw [sepByL_cons_cons]
      simp only [List.length_cons, List.length_append] at hrec ⊢
      omega

theorem parseFieldsLoop_pretty (o : Obj) :
    ∀ (f : Nat) (pre rest : List Char), o ≠ [] → o.length ≤ f → allWsB pre = true →
    parseFieldsLoop f (pre ++ (sepByL [',', '\n'] (o.map fieldChars) ++
      ('\n' :: ' ' :: ' ' :: rbraceC :: rest))) = some (o, rest) := by
  induction o with
  | nil => intro f pre rest h; exact absurd rfl h
  | cons kv o' ih =>
    intro f pre rest _ hf hpre
    cases f with
    | zero => simp at hf
    | succ f' =>
      cases o' with
      | nil =>
        rw [show sepByL [',', '\n'] ([kv].map fieldChars) ++
            ('\n' :: ' ' :: ' ' :: rbraceC :: rest) =
            fieldChars kv ++ ('\n' :: ' ' :: ' ' :: rbraceC :: rest) from by
          simp [sepByL]]
        simp only [parseFieldsLoop]
        rw [parseField_pretty pre hpre kv _ (by rfl)]
        have h1 : skipWs ('\n' :: ' ' :: ' ' :: rbraceC :: rest) = rbraceC :: rest := by
          rw [skipWs_cons_ws _ (by decide), skipWs_cons_ws _ (by decide),
            skipWs_cons_ws _ (by decide), skipWs_cons_not _ (by decide)]
        simp [h1, show ¬(rbraceC = ',') from by decide]
      | cons kv2 o'' =>
        rw [show sepByL [',', '\n'] ((kv :: kv2 :: o'').map fieldChars) ++
            ('\n' :: ' ' :: ' ' :: rbraceC :: rest) =
            fieldChars kv ++ (',' :: '\n' ::
              (sepByL [',', '\n'] ((kv2 :: o'').map fieldChars) ++
                ('\n' :: ' ' :: ' ' :: rbraceC :: rest))) from by
          rw [List.map_cons, List.map_cons, sepByL_cons_cons]
          simp [List.append_assoc]]
        simp only [parseFieldsLoop]
        rw [parseField_pretty pre hpre kv _ (by rfl)]
        have h1 : skipWs (',' :: '\n' ::
            (sepByL [',', '\n'] ((kv2 :: o'').map fieldChars) ++
              ('\n' :: ' ' :: ' ' :: rbraceC :: rest))) =
            ',' :: '\n' :: (sepByL [',', '\n'] ((kv2 :: o'').map fieldChars) ++
              ('\n' :: ' ' :: ' ' :: rbraceC :: rest)) :=
          skipWs_cons_not _ (by decide) _
        have hrec := ih f' ['\n'] rest (by simp) (by simpa using hf) (by decide)
        rw [List.singleton_append] at hrec
        simp only [List.map_cons] at h1 hrec
        simp [h1, hrec]

theorem objChars_length_ge (o : Obj) : o.length ≤ (objChars o).length := by
  cases o with
  | nil => simp [objChars]
  | cons kv o' =>
    have h := sepByL_length_ge [',', '\n'] ((kv :: o').map fieldChars)
      (by
        intro p hp
        simp only [List.mem_map] at hp
        obtain ⟨q, _, hq⟩ := hp
        rw [← hq]
        exact fieldChars_length q)
    rw [show objChars (kv :: o') = lbraceC :: '\n' ::
        (sepByL [',', '\n'] ((kv :: o').map fieldChars) ++
          '\n' :: ' ' :: ' ' :: rbraceC :: []) from by simp [objChars]]
    simp only [List.length_cons, List.length_append, List.length_map] at h ⊢
    omega

theorem parseObjL_pretty (o : Obj) (pre rest : List Char) (hpre : allWsB pre = true) :
    parseObjL (pre ++ (objChars o ++ rest)) = some (o, rest) := by
  cases o with
  | nil =>
    unfold parseObjL
    rw [skipWs_append_ws _ _ hpre]
    rw [show objChars [] ++ rest = lbraceC :: rbraceC :: rest from by simp [objChars]]
    rw [skipWs_cons_not _ (by decide)]
    have h2 : skipWs (rbraceC :: rest) = rbraceC :: rest := skipWs_cons_not _ (by decide) _
    simp [h2]
  | cons kv o' =>
    unfold parseObjL
    rw [skipWs_append_ws _ _ hpre]
    have heq : objChars (kv :: o') ++ rest =
        lbraceC :: ('\n' :: (sepByL [',', '\n'] ((kv :: o').map fieldChars) ++
          ('\n' :: ' ' :: ' ' :: rbraceC :: rest))) := by
      simp [objChars, List.append_assoc]
    rw [heq, skipWs_cons_not _ (by decide)]
    obtain ⟨z, hz⟩ := skipWs_sep_fields kv o'
      ('\n' :: ' ' :: ' ' :: rbraceC :: rest)
    have hsep := sepByL_length_ge [',', '\n'] ((kv :: o').map fieldChars)
      (by
        intro p hp
        simp only [List.mem_map] at hp
        obtain ⟨q, _, hq⟩ := hp
        rw [← hq]
        exact fieldChars_length q)
    have hloop := parseFieldsLoop_pretty (kv :: o')
      ((pre ++ lbraceC :: ('\n' :: (sepByL [',', '\n'] ((kv :: o').map fieldChars) ++
        ('\n' :: ' ' :: ' ' :: rbraceC :: rest)))).length + 1) ['\n'] rest
      (by simp)
      (by
        simp only [List.length_append, List.length_cons, List.length_map] at hsep ⊢
        omega)
      (by decide)
    rw [List.singleton_append] at hloop
    simp only [hz]
    rw [if_neg (by decide : ¬('"' = rbraceC))]
    exact hloop

theorem allWsB_append (a b : List Char) (ha : allWsB a = true) (hb : allWsB b = true) :
    allWsB (a ++ b) = true := by
  simp only [allWsB] at ha hb
  simp [allWsB, List.all_append, ha, hb]

theorem objChars_head (o : Obj) : ∃ t, objChars o = lbraceC :: t := by
  cases o with
  | nil => exact ⟨[rbraceC], by simp [objChars]⟩
  | cons kv o' =>
    exact ⟨'\n' :: (sepByL [',', '\n'] ((kv :: o').map fieldChars) ++
      '\n' :: ' ' :: ' ' :: rbraceC :: []), by simp [objChars]⟩

theorem skipWs_sep_elems (o : Obj) (ns' : List Obj) (t : List Char) :
    ∃ z, skipWs ('\n' :: (sepByL [',', '\n']
      ((o :: ns').map (fun x => ' ' :: ' ' :: objChars x)) ++ t)) = lbraceC :: z := by
  rw [skipWs_cons_ws _ (by decide)]
  obtain ⟨t', ht'⟩ := objChars_head o
  cases ns' with
  | nil =>
    simp only [List.map_cons, List.map_nil, sepByL]
    rw [List.cons_append, List.cons_append,
      skipWs_cons_ws _ (by decide), skipWs_cons_ws _ (by decide),
      ht', List.cons_append, skipWs_cons_not _ (by decide)]
    exact ⟨_, rfl⟩
  | cons o2 t2 =>
    rw [List.map_cons, List.map_cons, sepByL_cons_cons, List.append_assoc,
      List.cons_append, List.cons_append,
      skipWs_cons_ws _ (by decide), skipWs_cons_ws _ (by decide),
      ht', List.cons_append, skipWs_cons_not _ (by decide)]
    exact ⟨_, rfl⟩

theorem parseElemsLoop_pretty (ns : List Obj) :
    ∀ (f : Nat) (pre rest : List Char), ns ≠ [] → ns.length ≤ f → allWsB pre = true →
    parseElemsLoop f (pre ++ (sepByL [',', '\n']
      (ns.map (fun o => ' ' :: ' ' :: objChars o)) ++ ('\n' :: ']' :: rest))) =
      some (ns, rest) := by
  induction ns with
  | nil => intro f pre rest h; exact absurd rfl h
  | cons o ns' ih =>
    intro f pre rest _ hf hpre
    cases f with
    | zero => simp at hf
    | succ f' =>
      have hpre2 : allWsB (pre ++ [' ', ' ']) = true :=
        allWsB_append pre [' ', ' '] hpre (by decide)
      cases ns' with
      | nil =>
        rw [show sepByL [',', '\n'] ([o].map (fun x => ' ' :: ' ' :: objChars x)) ++
            ('\n' :: ']' :: rest) =
            (' ' :: ' ' :: objChars o) ++ ('\n' :: ']' :: rest) from by simp [sepByL]]
        simp only [parseElemsLoop]
        rw [show pre ++ ((' ' :: ' ' :: objChars o) ++ ('\n' :: ']' :: rest)) =
            (pre ++ [' ', ' ']) ++ (objChars o ++ ('\n' :: ']' :: rest)) from by
          simp [List.append_assoc]]
        rw [parseObjL_pretty o (pre ++ [' ', ' ']) ('\n' :: ']' :: rest) hpre2]
        have h1 : skipWs ('\n' :: ']' :: rest) = ']' :: rest := by
          rw [skipWs_cons_ws _ (by decide), skipWs_cons_not _ (by decide)]
        simp [h1, show ¬(']' = ',') from by decide]
      | cons o2 t2 =>
        rw [show sepByL [',', '\n'] ((o :: o2 :: t2).map (fun x => ' ' :: ' ' :: objChars x)) ++
            ('\n' :: ']' :: rest) =
            (' ' :: ' ' :: objChars o) ++ (',' :: '\n' ::
              (sepByL [',', '\n'] ((o2 :: t2).map (fun x => ' ' :: ' ' :: objChars x)) ++
                ('\n' :: ']' :: rest))) from by
          rw [List.map_cons, List.map_cons, sepByL_cons_cons]
          simp [List.append_assoc]]
        simp only [parseElemsLoop]
        rw [show pre ++ ((' ' :: ' ' :: objChars o) ++ (',' :: '\n' ::
            (sepByL [',', '\n'] ((o2 :: t2).map (fun x => ' ' :: ' ' :: objChars x)) ++
              ('\n' :: ']' :: rest)))) =
            (pre ++ [' ', ' ']) ++ (objChars o ++ (',' :: '\n' ::
              (sepByL [',', '\n'] ((o2 :: t2).map (fun x => ' ' :: ' ' :: objChars x)) ++
                ('\n' :: ']' :: rest)))) from by
          simp [List.append_assoc]]
        rw [parseObjL_pretty o (pre ++ [' ', ' ']) _ hpre2]
        have h1 : skipWs (',' :: '\n' ::
            (sepByL [',', '\n'] ((o2 :: t2).map (fun x => ' ' :: ' ' :: objChars x)) ++
              ('\n' :: ']' :: rest))) =
            ',' :: '\n' :: (sepByL [',', '\n']
              ((o2 :: t2).map (fun x => ' ' :: ' ' :: objChars x)) ++
              ('\n' :: ']' :: rest)) :=
          skipWs_cons_not _ (by decide) _
        have hrec := ih f' ['\n'] rest (by simp) (by simpa using hf) (by decide)
        rw [List.singleton_append] at hrec
        simp only [List.map_cons] at h1 hrec
        simp [h1, hrec]

/-- The pretty-printed store file parses back to exactly the same notes. -/
theorem parseNotes_writeNotes (ns : List Obj) : parseNotes (writeNotes ns) = some ns := by
  cases ns with
  | nil => decide
  | cons o ns' =>
    unfold parseNotes writeNotes
    rw [show (⟨notesChars (o :: ns')⟩ : String).data = notesChars (o :: ns') from rfl]
    have heq : notesChars (o :: ns') = '[' :: ('\n' :: (sepByL [',', '\n']
        ((o :: ns').map (fun x => ' ' :: ' ' :: objChars x)) ++ ('\n' :: ']' :: []))) := by
      simp [notesChars, List.append_assoc]
    rw [heq, skipWs_cons_not _ (by decide)]
    obtain ⟨z, hz⟩ := skipWs_sep_elems o ns' ('\n' :: ']' :: [])
    have hsep := sepByL_length_ge [',', '\n']
      ((o :: ns').map (fun x => ' ' :: ' ' :: objChars x))
      (by
        intro p hp
        simp only [List.mem_map] at hp
        obtain ⟨q, _, hq⟩ := hp
        rw [← hq]
        simp)
    have hloop := parseElemsLoop_pretty (o :: ns')
      (('\n' :: (sepByL [',', '\n'] ((o :: ns').map (fun x => ' ' :: ' ' :: objChars x)) ++
        ('\n' :: ']' :: []))).length + 1) ['\n'] []
      (by simp)
      (by
        simp only [List.length_cons, List.length_append, List.length_map] at hsep ⊢
        omega)
      (by decide)
    rw [List.singleton_append] at hloop
    simp only [hz]
    rw [if_neg (by decide : ¬(lbraceC = ']'))]
    rw [hloop]
    rfl

/-! ### The at-most-one-note-per-id invariant -/

theorem idEq_iff (o : Obj) (i : Int) :
    idEq o i = true ↔ getField o "id" = some (JVal.num i) := by
  unfold idEq
  cases h : getField o "id" with
  | none => simp
  | some v => cases v <;> simp [beq_iff_eq]

/-- The spec's invariant: at most one note per (numeric) id in the
persisted collection. -/
def AtMostOnePerId (notes : List Obj) : Prop :=
  ∀ i : Int, notes.countP (fun n => idEq n i) ≤ 1

/-- Executable check implying the invariant (used to discharge it on
concrete stores). -/
def uniqueIdsB : List Obj → Bool
  | [] => true
  | n :: ns =>
    (match getField n "id" with
     | some (JVal.num i) => ns.all (fun m => !(idEq m i))
     | _ => true) && uniqueIdsB ns

theorem AtMostOnePerId_of_uniqueIdsB (notes : List Obj) (h : uniqueIdsB notes = true) :
    AtMostOnePerId notes := by
  induction notes with
  | nil => intro i; simp
  | cons n ns ih =>
    have hh : (match getField n "id" with
        | some (JVal.num i) => ns.all (fun m => !(idEq m i))
        | _ => true) = true ∧ uniqueIdsB ns = true := by
      simpa [uniqueIdsB, Bool.and_eq_true] using h
    intro i
    rw [List.countP_cons]
    by_cases hn : idEq n i = true
    · have hid := (idEq_iff n i).mp hn
      have hall : ns.all (fun m => !(idEq m i)) = true := by
        have h1 := hh.1
        rw [hid] at h1
        exact h1
      have hz : ns.countP (fun m => idEq m i) = 0 := by
        rw [List.countP_eq_zero]
        intro m hm
        have := (List.all_eq_true.mp hall) m hm
        simpa using this
      simp [hn, hz]
    · have h2 := ih hh.2 i
      simp [hn]
      omega

theorem AtMostOnePerId_eraseIdx (notes : List Obj) (h : AtMostOnePerId notes)
    (idx : Nat) : AtMostOnePerId (notes.eraseIdx idx) := fun i =>
  le_trans (List.Sublist.countP_le _ (List.eraseIdx_sublist notes idx)) (h i)

theorem AtMostOnePerId_append_fresh (notes : List Obj) (h : AtMostOnePerId notes)
    (now : Int) (data : Obj) (hfresh : ∀ n ∈ notes, idEq n now = false) :
    AtMostOnePerId (notes ++ [mkNote now data]) := by
  intro i
  rw [List.countP_append]
  by_cases hi : now = i
  · subst hi
    have hz : notes.countP (fun n => idEq n now) = 0 :=
      List.countP_eq_zero.mpr (by intro a ha; simp [hfresh a ha])
    simp [hz, List.countP_cons, idEq_mkNote]
  · have h1 : (([mkNote now data] : List Obj).countP (fun n => idEq n i)) = 0 := by
      simp [List.countP_cons, idEq_mkNote, hi]
    have h2 := h i
    omega

theorem AtMostOnePerId_set_update (notes : List Obj) (h : AtMostOnePerId notes)
    (id : Int) (idx : Nat) (old : Obj) (data : Obj)
    (hfind : findNoteWithIdx id notes = some (idx, old))
    (hsafe : ∀ j : Int, getField data "id" = some (JVal.num j) →
      j = id ∨ notes.countP (fun n => idEq n j) = 0) :
    AtMostOnePerId (notes.set idx (spreadMerge old data)) := by
  obtain ⟨hget, hmatch⟩ := findNoteWithIdx_get _ _ _ _ hfind
  intro i
  have hbal := countP_set_balance (fun n => idEq n i) notes idx old
    (spreadMerge old data) hget
  beta_reduce at hbal
  have hold_id : getField old "id" = some (JVal.num id) := (idEq_iff _ _).mp hmatch
  have hmerged : getField (spreadMerge old data) "id" =
      (getField data "id").or (getField old "id") := getField_spreadMerge old data "id"
  by_cases hm : idEq (spreadMerge old data) i = true
  · have hmid : getField (spreadMerge old data) "id" = some (JVal.num i) :=
      (idEq_iff _ _).mp hm
    cases hd : getField data "id" with
    | none =>
      rw [hd] at hmerged
      simp only [Option.or] at hmerged
      have h1 : getField old "id" = some (JVal.num i) := by rw [← hmerged]; exact hmid
      have hoi : idEq old i = true := (idEq_iff _ _).mpr h1
      rw [if_pos hoi, if_pos hm] at hbal
      have h2 := h i
      omega
    | some v =>
      rw [hd] at hmerged
      simp only [Option.or] at hmerged
      have hv : v = JVal.num i := by
        have h1 := hmerged.symm.trans hmid
        simpa using h1
      subst hv
      rcases hsafe i hd with hji | hz
      · have hoi : idEq old i = true := (idEq_iff _ _).mpr (by rw [hold_id, hji])
        rw [if_pos hoi, if_pos hm] at hbal
        have h2 := h i
        omega
      · rw [if_pos hm, hz] at hbal
        by_cases ho : idEq old i = true
        · rw [if_pos ho] at hbal; omega
        · rw [if_neg ho] at hbal; omega
  · have hm' : idEq (spreadMerge old data) i = false := by simpa using hm
    have h2 := h i
    by_cases ho : idEq old i = true <;> simp [hm', ho] at hbal <;> omega

/-! ### Auxiliary list facts for the frame claims -/

theorem findNoteWithIdx_before (i : Int) (l : List Obj) (idx : Nat) (o : Obj)
    (h : findNoteWithIdx i l = some (idx, o)) :
    ∀ k, k < idx → ∃ n, l.get? k = some n ∧ idEq n i = false := by
  induction l generalizing idx with
  | nil => simp [findNoteWithIdx] at h
  | cons n ns ih =>
    rcases findNoteWithIdx_cons_elim h with ⟨_, hidx, _⟩ | ⟨hn, j, hidx, hrec⟩
    · subst hidx; intro k hk; omega
    · subst hidx
      intro k hk
      cases k with
      | zero => exact ⟨n, rfl, hn⟩
      | succ k' => simpa using ih j hrec k' (by omega)

theorem eraseIdx_take_drop (l : List Obj) (i : Nat) :
    l.eraseIdx i = l.take i ++ l.drop (i + 1) := by
  induction l generalizing i with
  | nil => simp
  | cons a t ih =>
    cases i with
    | zero => simp
    | succ i' => simp [List.eraseIdx_cons_succ, ih i']

theorem get?_set_ne (l : List Obj) (idx k : Nat) (m : Obj) (h : k ≠ idx) :
    (l.set idx m).get? k = l.get? k := by
  induction l generalizing idx k with
  | nil => simp
  | cons a t ih =>
    cases idx with
    | zero =>
      cases k with
      | zero => omega
      | succ k' => simp [List.set_cons_zero]
    | succ idx' =>
      cases k with
      | zero => simp [List.set_cons_succ]
      | succ k' =>
        simp only [List.set_cons_succ, List.get?_cons_succ]
        exact ih idx' k' (by omega)

theorem get?_lt_of_some (l : List Obj) (idx : Nat) (o : Obj)
    (h : l.get? idx = some o) : idx < l.length := by
  induction l generalizing idx with
  | nil => simp at h
  | cons a t ih =>
    cases idx with
    | zero => simp
    | succ idx' =>
      simp only [List.get?_cons_succ] at h
      simpa using Nat.succ_lt_succ (ih idx' h)

theorem get?_set_self (l : List Obj) (idx : Nat) (m : Obj) (h : idx < l.length) :
    (l.set idx m).get? idx = some m := by
  induction l generalizing idx with
  | nil => simp at h
  | cons a t ih =>
    cases idx with
    | zero => simp
    | succ idx' => simpa using ih idx' (by simpa using h)

/-! ### The claims -/

/-- C1 (amended): a create request (JSON `POST /api/notes` or form
`POST /notes/new`) appends the note built from the submitted fields and
the clock value; provided the millisecond clock value is positive and
differs from every id already in the store, a subsequent
`GET /api/notes/{id}` for the new id returns exactly the created note,
whose `title`/`content` equal what was submitted and whose assigned
`id` is the positive clock integer not previously in use. -/
theorem C1_create_then_fetch (notes : List Obj) (data : Obj) (id : Nat)
    (hpos : 0 < id) (hfresh : ∀ n ∈ notes, idEq n (id : Int) = false) :
    handleRequest "POST" "/api/notes" data (id : Int) notes =
      (Response.jsonObj 201 (mkNote (id : Int) data),
        notes ++ [mkNote (id : Int) data]) ∧
    handleRequest "POST" "/notes/new" data (id : Int) notes =
      (Response.redirect "/", notes ++ [mkNote (id : Int) data]) ∧
    handleRequest "GET" ("/api/notes/" ++ natToStr id) [] 0
        (notes ++ [mkNote (id : Int) data]) =
      (Response.jsonObj 200 (mkNote (id : Int) data),
        notes ++ [mkNote (id : Int) data]) ∧
    getField (mkNote (id : Int) data) "title" = getField data "title" ∧
    getField (mkNote (id : Int) data) "content" = getField data "content" ∧
    getField (mkNote (id : Int) data) "id" = some (JVal.num (id : Int)) ∧
    0 < id := by
  have hfound : findNote (id : Int) (notes ++ [mkNote (id : Int) data]) =
      some (mkNote (id : Int) data) := by
    rw [findNote_append_of_none _ _ _ hfresh]
    simp [findNote, idEq_mkNote]
  refine ⟨handle_api_create data (id : Int) notes,
    handle_web_create data (id : Int) notes, ?_,
    getField_mkNote_title _ _, getField_mkNote_content _ _,
    getField_mkNote_id _ _, hpos⟩
  rw [handle_api_get, hfound]

/-- C1 counterexample: with clock value 5 and a store already holding a
note with id 5, the assigned id IS previously in use and the subsequent
`GET /api/notes/5` does not return the created note (it returns the
pre-existing first match), so the claim as stated fails. -/
theorem C1_counterexample :
    ¬ ((∀ n ∈ ([[("id", JVal.num 5), ("title", JVal.str "old")]] : List Obj),
          idEq n 5 = false) ∨
       (handleRequest "GET" "/api/notes/5" [] 5
          (handleRequest "POST" "/api/notes" [("title", JVal.str "new")] 5
            [[("id", JVal.num 5), ("title", JVal.str "old")]]).2).1 =
         Response.jsonObj 200
           (mkNote 5 [("title", JVal.str "new")])) := by decide

theorem C1_create_then_fetch_witness :
    handleRequest "POST" "/api/notes" [("title", JVal.str "T")] ((3 : Nat) : Int) [] =
      (Response.jsonObj 201 (mkNote ((3 : Nat) : Int) [("title", JVal.str "T")]),
        [] ++ [mkNote ((3 : Nat) : Int) [("title", JVal.str "T")]]) :=
  (C1_create_then_fetch [] [("title", JVal.str "T")] 3 (by decide) (by simp)).1

/-- C2: for every id present in the store, `PUT /api/notes/{id}` and
`POST /notes/{id}/edit` replace the stored note with the shallow merge
of the existing note and the body: every field named in the body is
overwritten with the body's value, every field not named keeps its
stored value, and the merged object is what the PUT response returns. -/
theorem C2_update_shallow_merge (notes : List Obj) (id : Nat) (data : Obj)
    (idx : Nat) (old : Obj) (now : Int)
    (hfind : findNoteWithIdx (id : Int) notes = some (idx, old)) :
    handleRequest "PUT" ("/api/notes/" ++ natToStr id) data now notes =
      (Response.jsonObj 200 (spreadMerge old data),
        notes.set idx (spreadMerge old data)) ∧
    handleRequest "POST" ("/notes/" ++ natToStr id ++ "/edit") data now notes =
      (Response.redirect ("/notes/" ++ natToStr id),
        notes.set idx (spreadMerge old data)) ∧
    (∀ k v, getField data k = some v → getField (spreadMerge old data) k = some v) ∧
    (∀ k, getField data k = none →
      getField (spreadMerge old data) k = getField old k) := by
  refine ⟨?_, ?_, ?_, ?_⟩
  · rw [handle_api_put, hfind]
  · rw [handle_web_edit_post, hfind]
  · intro k v hv
    rw [getField_spreadMerge, hv]
    rfl
  · intro k hk
    rw [getField_spreadMerge, hk]
    rfl

theorem C2_update_shallow_merge_witness :
    handleRequest "PUT" ("/api/notes/" ++ natToStr 7) [("title", JVal.str "u")] 0
        [[("id", JVal.num 7), ("title", JVal.str "t"), ("content", JVal.str "c")]] =
      (Response.jsonObj 200
        (spreadMerge [("id", JVal.num 7), ("title", JVal.str "t"), ("content", JVal.str "c")]
          [("title", JVal.str "u")]),
        [[("id", JVal.num 7), ("title", JVal.str "t"), ("content", JVal.str "c")]].set 0
          (spreadMerge [("id", JVal.num 7), ("title", JVal.str "t"), ("content", JVal.str "c")]
            [("title", JVal.str "u")])) :=
  (C2_update_shallow_merge
    [[("id", JVal.num 7), ("title", JVal.str "t"), ("content", JVal.str "c")]]
    7 [("title", JVal.str "u")] 0
    [("id", JVal.num 7), ("title", JVal.str "t"), ("content", JVal.str "c")] 0
    (by decide)).1

/-- C3: for an id present in at most one note, `DELETE /api/notes/{id}`
returns 200 with the removed note, and afterwards the id is absent from
the listing, `GET /api/notes/{id}` returns the JSON not-found response, and
the HTML detail route returns the not-found page. -/
theorem C3_delete_then_not_found (notes : List Obj) (id : Nat) (idx : Nat)
    (victim : Obj) (now : Int)
    (hfind : findNoteWithIdx (id : Int) notes = some (idx, victim))
    (hcount : notes.countP (fun n => idEq n (id : Int)) ≤ 1) :
    handleRequest "DELETE" ("/api/notes/" ++ natToStr id) [] now notes =
      (Response.jsonObj 200 victim, notes.eraseIdx idx) ∧
    (∀ n ∈ notes.eraseIdx idx, idEq n (id : Int) = false) ∧
    handleRequest "GET" "/api/notes" [] now (notes.eraseIdx idx) =
      (Response.jsonArr 200 (notes.eraseIdx idx), notes.eraseIdx idx) ∧
    handleRequest "GET" ("/api/notes/" ++ natToStr id) [] now (notes.eraseIdx idx) =
      (notFoundJson, notes.eraseIdx idx) ∧
    handleRequest "GET" ("/notes/" ++ natToStr id) [] now (notes.eraseIdx idx) =
      (notFoundPage, notes.eraseIdx idx) := by
  have habsent := eraseIdx_no_match _ _ _ _ hfind hcount
  have hnone : findNote (id : Int) (notes.eraseIdx idx) = none :=
    (findNote_eq_none_iff _ _).mpr habsent
  refine ⟨?_, habsent, handle_api_list _ _ _, ?_, ?_⟩
  · rw [handle_api_delete, hfind]
  · rw [handle_api_get, hnone]
  · rw [handle_web_detail, hnone]

theorem C3_delete_then_not_found_witness :
    handleRequest "DELETE" ("/api/notes/" ++ natToStr 4) [] 0
        [[("id", JVal.num 4)], [("id", JVal.num 6)]] =
      (Response.jsonObj 200 [("id", JVal.num 4)],
        [[("id", JVal.num 4)], [("id", JVal.num 6)]].eraseIdx 0) :=
  (C3_delete_then_not_found [[("id", JVal.num 4)], [("id", JVal.num 6)]] 4 0
    [("id", JVal.num 4)] 0 (by decide) (by decide)).1

/-- C4: for a numeric id with no matching note, `GET`, `PUT` and
`DELETE` on `/api/notes/{id}` each return the 404 response whose JSON
body is `JSON.stringify({ error: 'Note not found' })`, and the store is
left unchanged. -/
theorem C4_not_found_no_write (notes : List Obj) (id : Nat) (data : Obj) (now : Int)
    (habsent : findNote (id : Int) notes = none) :
    handleRequest "GET" ("/api/notes/" ++ natToStr id) data now notes =
      (notFoundJson, notes) ∧
    handleRequest "PUT" ("/api/notes/" ++ natToStr id) data now notes =
      (notFoundJson, notes) ∧
    handleRequest "DELETE" ("/api/notes/" ++ natToStr id) data now notes =
      (notFoundJson, notes) ∧
    notFoundJson = Response.jsonErr 404 "Note not found" ∧
    errBodyString "Note not found" = "\x7b\"error\":\"Note not found\"\x7d" := by
  have hidx : findNoteWithIdx (id : Int) notes = none :=
    (findNoteWithIdx_none_iff _ _).mpr habsent
  refine ⟨?_, ?_, ?_, rfl, by decide⟩
  · rw [handle_api_get, habsent]
  · rw [handle_api_put, hidx]
  · rw [handle_api_delete, hidx]

theorem C4_not_found_no_write_witness :
    handleRequest "GET" ("/api/notes/" ++ natToStr 3) [] 0 [[("id", JVal.num 9)]] =
      (notFoundJson, [[("id", JVal.num 9)]]) :=
  (C4_not_found_no_write [[("id", JVal.num 9)]] 3 [] 0 (by decide)).1

/-- C5 counterexample: updating note 1 with a body that sets `id` to 2
produces two notes with id 2, so the at-most-one-note-per-id invariant
is NOT preserved by every handled request. -/
theorem C5_counterexample :
    AtMostOnePerId [[("id", JVal.num 1)], [("id", JVal.num 2)]] ∧
    ¬ AtMostOnePerId (handleRequest "PUT" "/api/notes/1" [("id", JVal.num 2)] 0
        [[("id", JVal.num 1)], [("id", JVal.num 2)]]).2 := by
  constructor
  · exact AtMostOnePerId_of_uniqueIdsB _ (by decide)
  · intro hc
    have h2 := hc 2
    rw [show (handleRequest "PUT" "/api/notes/1" [("id", JVal.num 2)] 0
        [[("id", JVal.num 1)], [("id", JVal.num 2)]]).2 =
        [[("id", JVal.num 2)], [("id", JVal.num 2)]] from by decide] at h2
    exact absurd h2 (by decide)

/-- C5 (amended): from a store with at most one note per id, delete
always preserves the invariant; create preserves it provided the clock
value differs from every stored id; update preserves it provided the
body does not set `id` to a numeric value already carried by a
different note. -/
theorem C5_invariant_preservation (notes : List Obj) (hinv : AtMostOnePerId notes) :
    (∀ (id : Nat) (data : Obj) (now : Int),
      AtMostOnePerId
        (handleRequest "DELETE" ("/api/notes/" ++ natToStr id) data now notes).2 ∧
      AtMostOnePerId
        (handleRequest "POST" ("/notes/" ++ natToStr id ++ "/delete") data now notes).2) ∧
    (∀ (now : Int) (data : Obj), (∀ n ∈ notes, idEq n now = false) →
      AtMostOnePerId (handleRequest "POST" "/api/notes" data now notes).2 ∧
      AtMostOnePerId (handleRequest "POST" "/notes/new" data now notes).2) ∧
    (∀ (id : Nat) (data : Obj) (now : Int),
      (∀ j : Int, getField data "id" = some (JVal.num j) →
        j = (id : Int) ∨ notes.countP (fun n => idEq n j) = 0) →
      AtMostOnePerId
        (handleRequest "PUT" ("/api/notes/" ++ natToStr id) data now notes).2 ∧
      AtMostOnePerId
        (handleRequest "POST" ("/notes/" ++ natToStr id ++ "/edit") data now notes).2) := by
  refine ⟨?_, ?_, ?_⟩
  · intro id data now
    constructor
    · rw [handle_api_delete]
      cases hfind : findNoteWithIdx (id : Int) notes with
      | none => exact hinv
      | some q =>
        obtain ⟨idx, old⟩ := q
        exact AtMostOnePerId_eraseIdx notes hinv idx
    · rw [handle_web_delete_post]
      cases hfind : findNoteWithIdx (id : Int) notes with
      | none => exact hinv
      | some q =>
        obtain ⟨idx, old⟩ := q
        exact AtMostOnePerId_eraseIdx notes hinv idx
  · intro now data hfresh
    constructor
    · rw [handle_api_create]
      exact AtMostOnePerId_append_fresh notes hinv now data hfresh
    · rw [handle_web_create]
      exact AtMostOnePerId_append_fresh notes hinv now data hfresh
  · intro id data now hsafe
    constructor
    · rw [handle_api_put]
      cases hfind : findNoteWithIdx (id : Int) notes with
      | none => exact hinv
      | some q =>
        obtain ⟨idx, old⟩ := q
        exact AtMostOnePerId_set_update notes hinv (id : Int) idx old data hfind hsafe
    · rw [handle_web_edit_post]
      cases hfind : findNoteWithIdx (id : Int) notes with
      | none => exact hinv
      | some q =>
        obtain ⟨idx, old⟩ := q
        exact AtMostOnePerId_set_update notes hinv (id : Int) idx old data hfind hsafe

theorem C5_invariant_preservation_witness :
    AtMostOnePerId
      (handleRequest "DELETE" ("/api/notes/" ++ natToStr 1) [] 0
        [[("id", JVal.num 1)]]).2 :=
  ((C5_invariant_preservation [[("id", JVal.num 1)]]
    (AtMostOnePerId_of_uniqueIdsB _ (by decide))).1 1 [] 0).1

/-- C6: `readNotes` returns the empty list exactly on the
file-does-not-exist outcome (`ENOENT`); any other read failure and any
parse failure propagate to the caller; a file whose content parses
yields its parsed notes, so the empty-sequence fallback arises from no
other condition. -/
theorem C6_readAll_fallback :
    readNotes ReadOutcome.errENOENT = Except.ok [] ∧
    readNotes ReadOutcome.errOther = Except.error StoreErr.fsError ∧
    (∀ raw, parseNotes raw = none →
      readNotes (ReadOutcome.ok raw) = Except.error StoreErr.parseError) ∧
    (∀ raw ns, parseNotes raw = some ns →
      readNotes (ReadOutcome.ok raw) = Except.ok ns) ∧
    (∀ r, readNotes r = Except.ok [] → r = ReadOutcome.errENOENT ∨
      ∃ raw, r = ReadOutcome.ok raw ∧ parseNotes raw = some []) := by
  refine ⟨rfl, rfl, ?_, ?_, ?_⟩
  · intro raw hp
    simp [readNotes, hp]
  · intro raw ns hp
    simp [readNotes, hp]
  · intro r h
    cases r with
    | ok raw =>
      cases hp : parseNotes raw with
      | none => simp [readNotes, hp] at h
      | some ns =>
        refine Or.inr ⟨raw, rfl, ?_⟩
        simp [readNotes, hp] at h
        rw [hp, h]
    | errENOENT => exact Or.inl rfl
    | errOther => simp [readNotes] at h

theorem C6_readAll_fallback_witness :
    readNotes (ReadOutcome.ok "[]") = Except.ok [] :=
  C6_readAll_fallback.2.2.2.1 "[]" [] (by decide)

/-- C7: for every well-formed persisted file (one that parses to a note
sequence), writing the parsed notes back (`writeAll(readAll())`) and
re-reading yields the same sequence of note objects: the pretty-printed
text parses back to exactly the notes that were read. -/
theorem C7_write_read_round_trip (raw : String) (ns : List Obj)
    (_h : readNotes (ReadOutcome.ok raw) = Except.ok ns) :
    readNotes (ReadOutcome.ok (writeNotes ns)) = Except.ok ns := by
  simp [readNotes, parseNotes_writeNotes]

theorem C7_write_read_round_trip_witness :
    readNotes (ReadOutcome.ok
      (writeNotes [[("id", JVal.num 2), ("title", JVal.str "a b")]])) =
      Except.ok [[("id", JVal.num 2), ("title", JVal.str "a b")]] :=
  C7_write_read_round_trip "[ \x7b \"id\" : 2 , \"title\" : \"a b\" \x7d ]"
    [[("id", JVal.num 2), ("title", JVal.str "a b")]]
    (by
      simp [readNotes, show parseNotes "[ \x7b \"id\" : 2 , \"title\" : \"a b\" \x7d ]" =
        some [[("id", JVal.num 2), ("title", JVal.str "a b")]] from by decide])

/-- C8: for every request whose path has a non-numeric id segment
(under `/api/notes/` or the web note routes), no route handler matches:
the response is the catch-all 404 HTML "Not Found" page and the store
is unchanged (for the bare `/notes/{id}` shape, the literal
`/notes/new` route is excluded since it is its own earlier pattern). -/
theorem C8_nonnumeric_id_catch_all (m s : String) (data : Obj) (now : Int)
    (notes : List Obj) (hs : ∀ c ∈ s.data, c ≠ '/')
    (hd : isDigitsL s.data = false) :
    handleRequest m ("/api/notes/" ++ s) data now notes = (catchAllPage, notes) ∧
    (s ≠ "new" →
      handleRequest m ("/notes/" ++ s) data now notes = (catchAllPage, notes)) ∧
    handleRequest m ("/notes/" ++ s ++ "/edit") data now notes = (catchAllPage, notes) ∧
    handleRequest m ("/notes/" ++ s ++ "/delete") data now notes = (catchAllPage, notes) ∧
    catchAllPage = Response.page 404 "Not Found" "<div>404 Not Found</div>" :=
  ⟨catchall_api_seg m s hs hd data now notes,
   fun hnew => catchall_web_seg m s hs hd hnew data now notes,
   catchall_edit_seg m s hs hd data now notes,
   catchall_delete_seg m s hs hd data now notes, rfl⟩

theorem C8_nonnumeric_id_catch_all_witness :
    handleRequest "GET" ("/api/notes/" ++ "abc") [] 0 [[("id", JVal.num 1)]] =
      (catchAllPage, [[("id", JVal.num 1)]]) :=
  (C8_nonnumeric_id_catch_all "GET" "abc" [] 0 [[("id", JVal.num 1)]]
    (by decide) (by decide)).1

/-- C9 counterexample: a PUT whose body contains an `id` field EQUAL to
the original id leaves the note findable, so the subsequent GET for the
original id returns the note, not the not-found response, refuting the
claim for bodies whose `id` value equals the stored one. -/
theorem C9_counterexample :
    (handleRequest "PUT" "/api/notes/1" [("id", JVal.num 1)] 0
        [[("id", JVal.num 1), ("title", JVal.str "t")]]).2 =
      [[("id", JVal.num 1), ("title", JVal.str "t")]] ∧
    (handleRequest "GET" "/api/notes/1" [] 0
        (handleRequest "PUT" "/api/notes/1" [("id", JVal.num 1)] 0
          [[("id", JVal.num 1), ("title", JVal.str "t")]]).2).1 ≠ notFoundJson := by
  decide

/-- C9 (amended): when the PUT/edit body contains an `id` field whose
value differs from the stored numeric id, the shallow merge overwrites
the note's id with the body-supplied value; when no other note carries
the original id, a subsequent `GET /api/notes/{original id}` returns
the not-found response. -/
theorem C9_body_id_overwrites (notes : List Obj) (id : Nat) (data : Obj) (v : JVal)
    (idx : Nat) (old : Obj) (now : Int)
    (hfind : findNoteWithIdx (id : Int) notes = some (idx, old))
    (hcount : notes.countP (fun n => idEq n (id : Int)) ≤ 1)
    (hv : getField data "id" = some v) (hne : v ≠ JVal.num (id : Int)) :
    getField (spreadMerge old data) "id" = some v ∧
    handleRequest "PUT" ("/api/notes/" ++ natToStr id) data now notes =
      (Response.jsonObj 200 (spreadMerge old data),
        notes.set idx (spreadMerge old data)) ∧
    handleRequest "POST" ("/notes/" ++ natToStr id ++ "/edit") data now notes =
      (Response.redirect ("/notes/" ++ natToStr id),
        notes.set idx (spreadMerge old data)) ∧
    handleRequest "GET" ("/api/notes/" ++ natToStr id) [] now
        (notes.set idx (spreadMerge old data)) =
      (notFoundJson, notes.set idx (spreadMerge old data)) := by
  have hmerged : getField (spreadMerge old data) "id" = some v := by
    rw [getField_spreadMerge, hv]
    rfl
  have hmm : idEq (spreadMerge old data) (id : Int) = false := by
    apply Bool.eq_false_iff.mpr
    intro h
    rw [idEq_iff, hmerged] at h
    exact hne (Option.some.inj h)
  have habsent := set_no_match _ _ _ _ (spreadMerge old data) hfind hcount hmm
  have hnone := (findNote_eq_none_iff _ _).mpr habsent
  refine ⟨hmerged, ?_, ?_, ?_⟩
  · rw [handle_api_put, hfind]
  · rw [handle_web_edit_post, hfind]
  · rw [handle_api_get, hnone]

theorem C9_body_id_overwrites_witness :
    getField (spreadMerge [("id", JVal.num 4)] [("id", JVal.num 9)]) "id" =
      some (JVal.num 9) :=
  (C9_body_id_overwrites [[("id", JVal.num 4)]] 4 [("id", JVal.num 9)] (JVal.num 9)
    0 [("id", JVal.num 4)] 0 (by decide) (by decide) (by decide) (by decide)).1

/-- C10: every mutating operation touches at most one position and
preserves the order of the others: create (API and form) appends the
new note at the end; update replaces the matched note in place, keeping
the length and every other position; delete (API and form) removes
exactly the first note whose id matches (take/drop decomposition, the
removed position matches, all earlier positions do not). -/
theorem C10_frame (notes : List Obj) (data : Obj) (now : Int) (id : Nat) :
    (handleRequest "POST" "/api/notes" data now notes).2 =
      notes ++ [mkNote now data] ∧
    (handleRequest "POST" "/notes/new" data now notes).2 =
      notes ++ [mkNote now data] ∧
    (∀ idx old, findNoteWithIdx (id : Int) notes = some (idx, old) →
      (handleRequest "PUT" ("/api/notes/" ++ natToStr id) data now notes).2 =
        notes.set idx (spreadMerge old data) ∧
      (notes.set idx (spreadMerge old data)).length = notes.length ∧
      (∀ k, k ≠ idx →
        (notes.set idx (spreadMerge old data)).get? k = notes.get? k) ∧
      (notes.set idx (spreadMerge old data)).get? idx =
        some (spreadMerge old data)) ∧
    (∀ idx victim, findNoteWithIdx (id : Int) notes = some (idx, victim) →
      (handleRequest "DELETE" ("/api/notes/" ++ natToStr id) data now notes).2 =
        notes.eraseIdx idx ∧
      (handleRequest "POST" ("/notes/" ++ natToStr id ++ "/delete") data now notes).2 =
        notes.eraseIdx idx ∧
      notes.eraseIdx idx = notes.take idx ++ notes.drop (idx + 1) ∧
      notes.get? idx = some victim ∧ idEq victim (id : Int) = true ∧
      (∀ k, k < idx → ∃ n, notes.get? k = some n ∧ idEq n (id : Int) = false)) := by
  refine ⟨?_, ?_, ?_, ?_⟩
  · rw [handle_api_create]
  · rw [handle_web_create]
  · intro idx old hfind
    obtain ⟨hget, _⟩ := findNoteWithIdx_get _ _ _ _ hfind
    refine ⟨?_, by simp, fun k hk => get?_set_ne notes idx k _ hk,
      get?_set_self notes idx _ (get?_lt_of_some notes idx old hget)⟩
    rw [handle_api_put, hfind]
  · intro idx victim hfind
    obtain ⟨hget, hmatch⟩ := findNoteWithIdx_get _ _ _ _ hfind
    refine ⟨?_, ?_, eraseIdx_take_drop notes idx, hget, hmatch,
      findNoteWithIdx_before _ _ _ _ hfind⟩
    · rw [handle_api_delete, hfind]
    · rw [handle_web_delete_post, hfind]

theorem C10_frame_witness :
    (handleRequest "POST" "/api/notes" [("title", JVal.str "T")] 5 []).2 =
      [] ++ [mkNote 5 [("title", JVal.str "T")]] :=
  (C10_frame [] [("title", JVal.str "T")] 5 1).1
